import Mathlib

/-!
# Model of `include/dmlc/threadediter.h` (dmlc-core)

Shallow embedding of the thread-backed iterators `ThreadedIter<DType>` and
`MultiThreadedIter<DType, SourceType>`.

Modelling choices:
* The concurrent system is modelled as a state machine whose steps are atomic:
  one iteration of the producer thread's loop body (`producerStep`), and the
  consumer-facing operations (`Next`, `Recycle`, `BeforeFirst`, `Destroy`,
  `Init`).  Blocking on a condition variable is modelled by running producer
  steps while the consumer's wait predicate is false; an operation that would
  block forever is modelled by an `Option`/`blocked` outcome rather than by a
  return value.
* The deterministic producer passed to `Init` is modelled by its full item
  sequence `items` together with the still-unproduced suffix `remaining`;
  `Producer::Next` pops the head of `remaining` and `Producer::BeforeFirst`
  restores `remaining := items`.
* Data cells are reusable buffers.  A free cell carries no data, so the free
  pool `free_cells_` is modelled by its size.  The number of cells currently on
  loan to the consumer through `Next(DType**)` is tracked in `loaned`, and the
  adapter cell `out_data_` separately, so that the total number of allocated
  cells is `allocatedOf`.
* `LOG(FATAL)` / failing `CHECK` is modelled by a `fatal` result, and
  `delete producer_owned_` by incrementing `owned_delete_count` (the pointer is
  deliberately NOT cleared, mirroring `ThreadedIter::Destroy`).
-/

set_option linter.unusedVariables false

/-- The signals sent to the producer thread (`enum Signal`). -/
inductive Signal where
  | kProduce
  | kBeforeFirst
  | kDestroy
deriving DecidableEq

/-- State of a `ThreadedIter<DType>` together with the deterministic producer
it was initialized with.  Fields mirror the C++ data members; `items` and
`remaining` model the producer closure, `loaned` counts cells handed out by
`Next(DType**)` and not yet recycled, and `owned_delete_count` counts how many
times `delete producer_owned_` has executed. -/
structure SPState (α : Type) where
  items : List α
  remaining : List α
  producer_sig : Signal
  producer_sig_processed : Bool
  produce_end : Bool
  max_capacity : Nat
  queue : List α
  free_cells : Nat
  out_data : Option α
  loaned : Nat
  producer_owned : Bool
  owned_delete_count : Nat
  thread_alive : Bool
deriving DecidableEq

/-- A freshly constructed `ThreadedIter(max_capacity)`: no thread, empty
queues, no owned producer.  (`producer_sig_` is uninitialized in C++ until
`Init`; the model picks the benign `kProduce`.) -/
def spFresh (α : Type) (cap : Nat) : SPState α :=
  { items := [], remaining := [], producer_sig := .kProduce,
    producer_sig_processed := false, produce_end := false,
    max_capacity := cap, queue := [], free_cells := 0, out_data := none,
    loaned := 0, producer_owned := false, owned_delete_count := 0,
    thread_alive := false }

/-- The producer thread's wait predicate (threadediter.h lines 301-309): with
signal `kProduce` the thread proceeds only if the stream has not ended and
there is room (ready queue below capacity or a free cell available); any other
signal wakes it unconditionally.  A dead thread never runs. -/
def producerRunnable {α : Type} (s : SPState α) : Bool :=
  s.thread_alive &&
    (match s.producer_sig with
     | .kProduce =>
         !s.produce_end &&
           (decide (s.queue.length < s.max_capacity) || !(s.free_cells == 0))
     | _ => true)

/-- One iteration of the producer loop body (threadediter.h lines 295-357),
run when the wait predicate holds.
* `kProduce`: take a free cell if one exists (the `Nat` subtraction
  `free_cells - 1` is a no-op when the pool is empty, in which case the
  producer allocates a fresh cell), call `next(&cell)`; on success push the
  filled cell onto the ready queue, otherwise set `produce_end_` and return
  the untouched cell (if any) to the pool.
* `kBeforeFirst`: rerun `beforefirst()` (restore `remaining`), move the ready
  queue back into the free pool, clear `produce_end_`, acknowledge, revert the
  signal to `kProduce`.
* `kDestroy`: acknowledge, force `produce_end_`, and exit the thread. -/
def producerStep {α : Type} (s : SPState α) : SPState α :=
  match s.producer_sig with
  | .kProduce =>
      match s.remaining with
      | [] => { s with produce_end := true }
      | a :: rest =>
          { s with remaining := rest, queue := s.queue ++ [a],
                   free_cells := s.free_cells - 1 }
  | .kBeforeFirst =>
      { s with remaining := s.items,
               free_cells := s.free_cells + s.queue.length, queue := [],
               produce_end := false, producer_sig_processed := true,
               producer_sig := .kProduce }
  | .kDestroy =>
      { s with producer_sig_processed := true, produce_end := true,
               thread_alive := false }

/-- The consumer's wait in `Next` (lines 370-372): while the ready queue is
empty and the stream has not ended, the consumer blocks and the producer runs.
One producer step suffices to make the wait predicate true when the producer
is runnable with signal `kProduce`. -/
def waitReady {α : Type} (s : SPState α) : SPState α :=
  if s.queue.isEmpty && !s.produce_end then
    (if producerRunnable s then producerStep s else s)
  else s

/-- Outcome of a pull: `val a` = returns true with a cell, `eos` = returns
false, `fatal` = a `CHECK` aborts the process, `blocked` = the call never
returns (no producer can ever satisfy the wait predicate). -/
inductive NextRes (α : Type) where
  | val (a : α)
  | eos
  | fatal
  | blocked
deriving DecidableEq

/-- `ThreadedIter::Next(DType **out_dptr)` (lines 362-385): returns false
immediately if a destroy signal is pending; fatal `CHECK` unless the signal is
`kProduce`; waits until the ready queue is non-empty or the stream ended;
pops the front cell (strict FIFO) and hands it to the caller, else reports
end-of-stream. -/
def ThreadedIter.Next {α : Type} (s : SPState α) : NextRes α × SPState α :=
  if s.producer_sig = .kDestroy then (.eos, s)
  else if s.producer_sig ≠ .kProduce then (.fatal, s)
  else
    let s1 := waitReady s
    match s1.queue with
    | a :: q => (.val a, { s1 with queue := q, loaned := s1.loaned + 1 })
    | [] => if s1.produce_end then (.eos, s1) else (.blocked, s1)

/-- `ThreadedIter::Recycle` (lines 387-397): return a loaned cell to the free
pool and null the caller's pointer. -/
def ThreadedIter.Recycle {α : Type} (s : SPState α) : SPState α :=
  { s with free_cells := s.free_cells + 1, loaned := s.loaned - 1 }

/-- Moving the adapter cell `out_data_` into the free pool (the first thing
`ThreadedIter::BeforeFirst` does, lines 172-175; also what the adapter `Next`
does through `Recycle`). -/
def recycleOutData {α : Type} (s : SPState α) : SPState α :=
  if s.out_data.isSome then
    { s with free_cells := s.free_cells + 1, out_data := none }
  else s

/-- The adapter `ThreadedIter::Next(void)` (lines 150-159): recycle the
previous `out_data_` cell, then pull the next cell into `out_data_`.  The
loaned cell immediately becomes the adapter cell, so `loaned` is unchanged
overall. -/
def ThreadedIter.NextAdapter {α : Type} (s : SPState α) : Bool × SPState α :=
  let s0 := recycleOutData s
  match ThreadedIter.Next s0 with
  | (.val a, s1) => (true, { s1 with out_data := some a, loaned := s1.loaned - 1 })
  | (_, s1) => (false, s1)

/-- `ThreadedIter::BeforeFirst` (lines 170-193): move `out_data_` into the
free pool; if a destroy signal is pending return immediately; otherwise set
the `kBeforeFirst` signal, wake the producer, and block until the request is
acknowledged, then clear the acknowledgement.  If the producer thread is not
running the wait never ends, modelled by `none`. -/
def ThreadedIter.BeforeFirst {α : Type} (s : SPState α) : Option (SPState α) :=
  let s1 := recycleOutData s
  if s1.producer_sig = .kDestroy then some s1
  else if s1.thread_alive then
    let s2 := producerStep { s1 with producer_sig := .kBeforeFirst }
    some { s2 with producer_sig_processed := false }
  else none

/-- `ThreadedIter::Destroy` (lines 237-269): if the thread is running, send
`kDestroy`, let the thread acknowledge and exit, and join it; then delete
every cell in the free pool and the ready queue, `delete producer_owned_`
(the pointer is NOT cleared afterwards — this mirrors the source), and delete
`out_data_` (which IS cleared). -/
def ThreadedIter.Destroy {α : Type} (s : SPState α) : SPState α :=
  let s1 := if s.thread_alive then
      producerStep { s with producer_sig := .kDestroy }
    else s
  let s2 := { s1 with free_cells := 0, queue := [] }
  let s3 := if s2.producer_owned then
      { s2 with owned_delete_count := s2.owned_delete_count + 1 }
    else s2
  if s3.out_data.isSome then { s3 with out_data := none } else s3

/-- `ThreadedIter::Init(next, beforefirst)` (lines 284-360) for the
deterministic list producer: reset the signal state, run `beforefirst()`
(restore `remaining := items`), and launch the producer thread.  Note: the
source performs NO double-init check in this overload. -/
def ThreadedIter.InitClosure {α : Type} (items : List α) (s : SPState α) :
    SPState α :=
  { s with producer_sig := .kProduce, producer_sig_processed := false,
           produce_end := false, items := items, remaining := items,
           thread_alive := true }

/-- `ThreadedIter::Init(Producer*, pass_ownership)` (lines 271-283):
`CHECK(producer_owned_ == NULL)` — fatal (`error`) only when a previous Init
stored an owned producer; records ownership when `pass_ownership` is true,
then delegates to the closure Init. -/
def ThreadedIter.InitProducer {α : Type} (items : List α)
    (pass_ownership : Bool) (s : SPState α) : Except Unit (SPState α) :=
  if s.producer_owned then .error ()
  else
    let s1 := if pass_ownership then { s with producer_owned := true } else s
    .ok (ThreadedIter.InitClosure items s1)

/-- Total number of cells currently allocated by the pipe: free pool + ready
queue + cells on loan through `Next(DType**)` + the adapter cell. -/
def allocatedOf {α : Type} (s : SPState α) : Nat :=
  s.free_cells + s.queue.length + s.loaned +
    (if s.out_data.isSome then 1 else 0)

/-- Run `n` producer-loop iterations, each gated by the wait predicate
(a non-runnable producer stays blocked). -/
def applyProdSteps {α : Type} : Nat → SPState α → SPState α
  | 0, s => s
  | n + 1, s =>
      applyProdSteps n (if producerRunnable s then producerStep s else s)

/-- Drive the consumer: for each entry `m` of the schedule, let the producer
run up to `m` loop iterations, then call `Next`; collect the pulled values and
stop at the first call that does not return a value.  The schedule makes the
producer/consumer interleaving explicit. -/
def spConsume {α : Type} : List Nat → SPState α → List α × SPState α
  | [], s => ([], s)
  | m :: sched, s =>
      let s0 := applyProdSteps m s
      match ThreadedIter.Next s0 with
      | (.val a, s1) =>
          let p := spConsume sched s1
          (a :: p.1, p.2)
      | (_, s1) => ([], s1)

/-- Invariant of a running pipe whose deterministic producer yields `l` and
whose consumer has already pulled the first `k` items: the ready queue
followed by the unproduced suffix is exactly the rest of `l`, and
end-of-stream is only ever set once the producer is exhausted. -/
def SPInv {α : Type} (l : List α) (k : Nat) (s : SPState α) : Prop :=
  s.producer_sig = .kProduce ∧ s.thread_alive = true ∧ s.items = l ∧
  s.queue ++ s.remaining = l.drop k ∧
  (s.produce_end = true → s.remaining = []) ∧
  0 < s.max_capacity

/-- Unwrap an `Except`, with a default for the error case. -/
def exceptGetD {ε β : Type} (e : Except ε β) (d : β) : β :=
  match e with
  | .ok b => b
  | .error _ => d

/-- Whether an `Except` is a success. -/
def exceptOk {ε β : Type} : Except ε β → Bool
  | .ok _ => true
  | .error _ => false

/-- A concrete destroyed pipe: a pipe initialized with the producer sequence
`[5, 6]` on which `Destroy` has run, so the shutdown signal is set. -/
def c2Destroyed : SPState Nat :=
  ThreadedIter.Destroy (ThreadedIter.InitClosure [5, 6] (spFresh Nat 2))

/-- A pipe whose first `Init` passed ownership of the producer
(`Init(&producer, true)` with producer sequence `[1, 2]`). -/
def c3Owned : SPState Nat :=
  exceptGetD (ThreadedIter.InitProducer [1, 2] true (spFresh Nat 8))
    (spFresh Nat 8)

/-- First `Init` without ownership transfer: `Init(&producer, false)` with
producer sequence `[7]`. -/
def c4FirstInit : SPState Nat :=
  exceptGetD (ThreadedIter.InitProducer [7] false (spFresh Nat 2))
    (spFresh Nat 2)

/-- An interleaving step of the running system: one producer-loop iteration
(gated by the wait predicate), one adapter pull (`Next(void)`, which recycles
the previous cell before pulling, lines 150-159), or one adapter rewind. -/
inductive SPOp where
  | produceStep
  | adapterNext
  | adapterRewind
deriving DecidableEq

/-- Apply one interleaving step. -/
def applyOp {α : Type} : SPOp → SPState α → SPState α
  | .produceStep, s => if producerRunnable s then producerStep s else s
  | .adapterNext, s => (ThreadedIter.NextAdapter s).2
  | .adapterRewind, s => (ThreadedIter.BeforeFirst s).getD s

/-- Apply a whole interleaving. -/
def applyOps {α : Type} (ops : List SPOp) (s : SPState α) : SPState α :=
  ops.foldl (fun t op => applyOp op t) s

/-- The demonstration run for the capacity claim: capacity 1, producer
`[1, 2, 3]`, and three raw `Next(DType**)` pulls with no recycling, so three
cells end up on loan at once. -/
def c6Trace : SPState Nat :=
  (ThreadedIter.Next (ThreadedIter.Next (ThreadedIter.Next
      (ThreadedIter.InitClosure [1, 2, 3] (spFresh Nat 1))).2).2).2

/-- The cell-count invariant behind the (amended) capacity bound: when the
consumer uses the adapter interface, no cell is on loan outside `out_data_`,
and the total number of allocated cells stays within `capacity + 1`. -/
def CellInv {α : Type} (cap : Nat) (s : SPState α) : Prop :=
  s.loaned = 0 ∧ s.max_capacity = cap ∧ allocatedOf s ≤ cap + 1

/-- State of a `MultiThreadedIter<DType, SourceType>`.  `trace` holds the
entries the shared queue will deliver to the consumer, in arrival order
(`none` = sentinel); `threads_alive` counts unjoined worker threads;
`transform_reset_count` counts executions of the stored reset closure
`before_first_`; `queue_allocated` records whether `Init` has allocated the
shared `ConcurrentBlockingQueue` (`queue_` is a null pointer until then). -/
structure MTState (α σ : Type) where
  loader : SPState σ
  thread_num : Nat
  force_stopped : Bool
  null_cell_num : Nat
  queue_allocated : Bool
  trace : List (Option α)
  out_data : Option α
  free_cells : Nat
  threads_alive : Nat
  transform_reset_count : Nat
  queue_capacity : Nat
deriving DecidableEq

/-- A freshly constructed `MultiThreadedIter(base, thread_num,
queue_capacity)`: no workers launched, shared queue not yet allocated. -/
def mtFreshState {α σ : Type} (loader : SPState σ) (thread_num : Nat)
    (queue_capacity : Nat) : MTState α σ :=
  { loader := loader, thread_num := thread_num, force_stopped := false,
    null_cell_num := 0, queue_allocated := false, trace := [],
    out_data := none, free_cells := 0, threads_alive := 0,
    transform_reset_count := 0, queue_capacity := queue_capacity }

/-- `MultiThreadedIter::Init` (lines 540-571): allocate the shared queue,
store the reset closure, and launch `thread_num_` worker threads. -/
def MultiThreadedIter.Init {α σ : Type} (s : MTState α σ) : MTState α σ :=
  { s with queue_allocated := true, threads_alive := s.thread_num }

/-- The pop loop inside `MultiThreadedIter::Next` (lines 576-589), acting on
the null-cell counter and the pending trace: pop entries from the shared
queue; a real cell is returned; a sentinel increments the counter, and when
the counter reaches `N` the call returns false; if the queue can deliver
nothing more the call blocks. -/
def mtNextAux {α : Type} (N : Nat) :
    Nat → List (Option α) → NextRes α × Nat × List (Option α)
  | k, [] => (.blocked, k, [])
  | k, some a :: t => (.val a, k, t)
  | k, none :: t =>
      if k + 1 = N then (.eos, k + 1, t) else mtNextAux N (k + 1) t

/-- `MultiThreadedIter::Next(DType **out_dptr)` (lines 573-590): return false
immediately once the null-cell counter has reached the worker count (no pop
is attempted); otherwise run the pop loop; each returned real cell recycles
its paired source item back to the upstream loader. -/
def MultiThreadedIter.Next {α σ : Type} (s : MTState α σ) :
    NextRes α × MTState α σ :=
  if s.thread_num ≤ s.null_cell_num then (.eos, s)
  else
    match mtNextAux s.thread_num s.null_cell_num s.trace with
    | (.val a, k, t) =>
        (.val a, { s with null_cell_num := k, trace := t,
                          loader := ThreadedIter.Recycle s.loader })
    | (r, k, t) => (r, { s with null_cell_num := k, trace := t })

/-- `MultiThreadedIter::Recycle` applied to the adapter cell `out_data_`
(line 481): return it to the pipe's own free pool and null it. -/
def mtRecycleOut {α σ : Type} (s : MTState α σ) : MTState α σ :=
  if s.out_data.isSome then
    { s with free_cells := s.free_cells + 1, out_data := none }
  else s

/-- The adapter `MultiThreadedIter::Next(void)` (lines 479-484): recycle the
previous `out_data_` cell into the pipe's own free pool, then pull the next
cell into `out_data_`. -/
def MultiThreadedIter.NextAdapter {α σ : Type} (s : MTState α σ) :
    NextRes α × MTState α σ :=
  match MultiThreadedIter.Next (mtRecycleOut s) with
  | (.val a, s1) => (.val a, { s1 with out_data := some a })
  | (r, s1) => (r, s1)

/-- Repeatedly call the raw `Next`, collecting the returned cells, until a
call does not return a cell (fuel-bounded; `trace.length + 1` calls always
suffice). -/
def mtDrainNext {α σ : Type} : Nat → MTState α σ → List α × MTState α σ
  | 0, s => ([], s)
  | fuel + 1, s =>
      match MultiThreadedIter.Next s with
      | (.val a, s1) =>
          let p := mtDrainNext fuel s1
          (a :: p.1, p.2)
      | (_, s1) => ([], s1)

/-- The drain loop `while (Next()) {}` of `MultiThreadedIter::BeforeFirst`
(lines 629 and 635), using the adapter `Next` (fuel-bounded). -/
def mtDrainAdapter {α σ : Type} : Nat → MTState α σ → MTState α σ
  | 0, s => s
  | fuel + 1, s =>
      match MultiThreadedIter.NextAdapter s with
      | (.val _, s1) => mtDrainAdapter fuel s1
      | (_, s1) => s1

/-- `MultiThreadedIter::BeforeFirst` (lines 625-646), in source order: set the
force-stop flag; drain the shared queue via the adapter `Next` until it
reports end-of-stream; join all worker threads; drain again; re-run the
stored reset closure `before_first_`; rewind the upstream loader; clear the
force-stop flag and the null-cell counter; relaunch `thread_num_` workers.
`none` models the case where the upstream rewind never returns. -/
def MultiThreadedIter.BeforeFirst {α σ : Type} (s : MTState α σ) :
    Option (MTState α σ) :=
  let s1 := { s with force_stopped := true }
  let s2 := mtDrainAdapter (s1.trace.length + 1) s1
  let s3 := { s2 with threads_alive := 0 }
  let s4 := mtDrainAdapter (s3.trace.length + 1) s3
  let s5 := { s4 with transform_reset_count := s4.transform_reset_count + 1 }
  match ThreadedIter.BeforeFirst s5.loader with
  | some ld =>
      some { s5 with loader := ld, force_stopped := false,
                     null_cell_num := 0, threads_alive := s5.thread_num }
  | none => none

/-- `MultiThreadedIter::Destroy` (lines 592-623): a no-op if the force-stop
flag is already set; otherwise it sets the flag and calls
`queue_->SignalForKill()` — dereferencing `queue_`, which is a NULL pointer
unless `Init` ran (`error`) — then joins the workers, destroys the upstream
loader, frees the cells in the free pool and the shared queue, and deletes
the current output cell. -/
def MultiThreadedIter.Destroy {α σ : Type} (s : MTState α σ) :
    Except String (MTState α σ) :=
  if s.force_stopped then .ok s
  else if ¬ s.queue_allocated then
    .error "null queue_ dereferenced in SignalForKill"
  else
    .ok { s with force_stopped := true, threads_alive := 0,
                 loader := ThreadedIter.Destroy s.loader,
                 free_cells := 0, trace := [], out_data := none }

/-- The control state of the multi-producer pipe: force-stop flag, null-cell
counter, number of live workers. -/
def mtControl {α σ : Type} (s : MTState α σ) : Bool × Nat × Nat :=
  (s.force_stopped, s.null_cell_num, s.threads_alive)

/-- The stream a single worker contributes to the shared queue: its
transformed items followed by its one sentinel. -/
def mkStream {α : Type} (xs : List α) : List (Option α) :=
  xs.map some ++ [none]

/-- A (suffix of a) worker stream: either already fully pushed, or some items
followed by the one sentinel. -/
def Shaped {α : Type} (str : List (Option α)) : Prop :=
  str = [] ∨ ∃ xs, str = mkStream xs

/-- `t` is an order-preserving interleaving of the streams `fs` (one per
worker): queue arrival order restricted to any one worker is that worker's
push order. -/
inductive Merged {β : Type} : List (List β) → List β → Prop
  | nil (fs : List (List β)) : (∀ str ∈ fs, str = []) → Merged fs []
  | cons (fs : List (List β)) (w : Nat) (b : β) (rest : List β)
      (t : List β) :
      fs.get? w = some (b :: rest) → Merged (fs.set w rest) t →
      Merged fs (b :: t)

/-- Sum of a `Nat` measure over a list of streams. -/
def gsum {γ : Type} (g : γ → Nat) (fs : List γ) : Nat := (fs.map g).sum

/-- Number of streams that still have entries to push. -/
def activeCount {α : Type} (fs : List (List (Option α))) : Nat :=
  gsum (fun str => if str.isEmpty then 0 else 1) fs

/-- Number of real (non-sentinel) entries of a stream. -/
def someCount {α : Type} (str : List (Option α)) : Nat :=
  str.countP (fun c => c.isSome)

/-- Total number of real entries over all streams. -/
def somesTotal {α : Type} (fs : List (List (Option α))) : Nat :=
  gsum someCount fs

/-- Specification-level drain: walk the pending trace with the null-cell
counter, collecting real cells, stopping once the counter reaches `N`;
returns the collected cells, the final counter, and the unread trace. -/
def mtDrainList {α : Type} (N : Nat) :
    Nat → List (Option α) → List α × Nat × List (Option α)
  | k, [] => ([], k, [])
  | k, c :: t =>
      if N ≤ k then ([], k, c :: t)
      else
        match c with
        | some a =>
            let p := mtDrainList N k t
            (a :: p.1, p.2)
        | none => mtDrainList N (k + 1) t

/-- A running multi-producer pipe directly after `Init` with `thread_num`
workers, whose workers will deliver the entries `t` through the shared
queue. -/
def mkMTState {α : Type} (thread_num : Nat) (t : List (Option α)) :
    MTState α Unit :=
  { loader := spFresh Unit 8, thread_num := thread_num,
    force_stopped := false, null_cell_num := 0, queue_allocated := true,
    trace := t, out_data := none, free_cells := 0,
    threads_alive := thread_num, transform_reset_count := 0,
    queue_capacity := 8 }

/-- A concrete running multi-producer pipe for the `BeforeFirst` witness:
one worker, pending deliveries `5` then the sentinel, an adapter cell held. -/
def c8State : MTState Nat Nat :=
  { loader := ThreadedIter.InitClosure [] (spFresh Nat 4), thread_num := 1,
    force_stopped := false, null_cell_num := 0, queue_allocated := true,
    trace := [some 5, none], out_data := some 9, free_cells := 0,
    threads_alive := 1, transform_reset_count := 0, queue_capacity := 4 }

/-! ## Theorems -/

lemma producerStep_nil {α : Type} {s : SPState α}
    (hsig : s.producer_sig = .kProduce) (hrem : s.remaining = []) :
    producerStep s = { s with produce_end := true } := by
  unfold producerStep
  rw [hsig, hrem]

lemma producerStep_cons {α : Type} {s : SPState α} {a : α} {rest : List α}
    (hsig : s.producer_sig = .kProduce) (hrem : s.remaining = a :: rest) :
    producerStep s = { s with remaining := rest, queue := s.queue ++ [a],
                              free_cells := s.free_cells - 1 } := by
  unfold producerStep
  rw [hsig, hrem]

lemma waitReady_eq_step {α : Type} {s : SPState α}
    (hw : (s.queue.isEmpty && !s.produce_end) = true)
    (hrun : producerRunnable s = true) :
    waitReady s = producerStep s := by
  unfold waitReady
  rw [hw, hrun]
  simp

lemma waitReady_eq_self {α : Type} {s : SPState α}
    (hw : ¬ (s.queue.isEmpty && !s.produce_end) = true) :
    waitReady s = s := by
  unfold waitReady
  simp [hw]

lemma spNext_eq_val {α : Type} {s : SPState α}
    (hsig : s.producer_sig = .kProduce)
    {a : α} {q : List α} (hqw : (waitReady s).queue = a :: q) :
    ThreadedIter.Next s =
      (.val a, { (waitReady s) with
                   queue := q,
                   loaned := (waitReady s).loaned + 1 }) := by
  unfold ThreadedIter.Next
  rw [hsig]
  simp [hqw]

lemma spNext_eq_eos {α : Type} {s : SPState α}
    (hsig : s.producer_sig = .kProduce)
    (hqw : (waitReady s).queue = [])
    (hpe : (waitReady s).produce_end = true) :
    ThreadedIter.Next s = (.eos, waitReady s) := by
  unfold ThreadedIter.Next
  rw [hsig]
  simp [hqw, hpe]

/-! ## FIFO invariant for a run of the single-producer pipe -/

lemma spInv_init {α : Type} (l : List α) (cap : Nat) (hcap : 0 < cap) :
    SPInv l 0 (ThreadedIter.InitClosure l (spFresh α cap)) := by
  refine ⟨rfl, rfl, rfl, by simp [ThreadedIter.InitClosure, spFresh], ?_, hcap⟩
  intro h
  simp [ThreadedIter.InitClosure, spFresh] at h

lemma producerRunnable_end {α : Type} {s : SPState α}
    (hsig : s.producer_sig = .kProduce) (hr : producerRunnable s = true) :
    s.produce_end = false := by
  unfold producerRunnable at hr
  rw [hsig] at hr
  simp at hr
  exact hr.2.1

lemma spInv_producerStep {α : Type} {l : List α} {k : Nat} {s : SPState α}
    (h : SPInv l k s) (hr : producerRunnable s = true) :
    SPInv l k (producerStep s) := by
  obtain ⟨hsig, halive, hitems, hq, hend, hcap⟩ := h
  have hne := producerRunnable_end hsig hr
  cases hrem : s.remaining with
  | nil =>
      rw [producerStep_nil hsig hrem]
      exact ⟨hsig, halive, hitems, by rw [hrem] at hq; simpa [hrem] using hq,
             fun _ => hrem, hcap⟩
  | cons a rest =>
      rw [producerStep_cons hsig hrem]
      refine ⟨hsig, halive, hitems, ?_, ?_, hcap⟩
      · show (s.queue ++ [a]) ++ rest = l.drop k
        rw [List.append_assoc]
        rw [hrem] at hq
        simpa using hq
      · intro hE
        exact absurd hE (by simp [hne])

lemma spInv_guardedStep {α : Type} {l : List α} {k : Nat} {s : SPState α}
    (h : SPInv l k s) :
    SPInv l k (if producerRunnable s then producerStep s else s) := by
  by_cases hr : producerRunnable s = true
  · simpa [hr] using spInv_producerStep h hr
  · simp only [Bool.not_eq_true] at hr
    simpa [hr] using h

lemma spInv_applyProdSteps {α : Type} {l : List α} {k : Nat} (m : Nat)
    {s : SPState α} (h : SPInv l k s) : SPInv l k (applyProdSteps m s) := by
  induction m generalizing s with
  | zero => exact h
  | succ n ih => exact ih (spInv_guardedStep h)

lemma spInv_waitReady {α : Type} {l : List α} {k : Nat} {s : SPState α}
    (h : SPInv l k s) :
    SPInv l k (waitReady s) ∧
      ((waitReady s).queue = [] → (waitReady s).produce_end = true) := by
  obtain ⟨hsig, halive, hitems, hq, hend, hcap⟩ := h
  by_cases hw : (s.queue.isEmpty && !s.produce_end) = true
  · have hqe : s.queue = [] := by
      have h1 := hw
      simp only [Bool.and_eq_true, List.isEmpty_iff] at h1
      exact h1.1
    have hpe : s.produce_end = false := by
      have h1 := hw
      simp only [Bool.and_eq_true, Bool.not_eq_eq_eq_not, Bool.not_true] at h1
      exact h1.2
    have hrun : producerRunnable s = true := by
      unfold producerRunnable
      rw [hsig, halive, hpe, hqe]
      simp [hcap]
    rw [waitReady_eq_step hw hrun]
    refine ⟨spInv_producerStep ⟨hsig, halive, hitems, hq, hend, hcap⟩ hrun, ?_⟩
    cases hrem : s.remaining with
    | nil =>
        rw [producerStep_nil hsig hrem]
        intro _
        rfl
    | cons a rest =>
        rw [producerStep_cons hsig hrem]
        intro hq2
        exact absurd hq2 (by simp)
  · rw [waitReady_eq_self hw]
    refine ⟨⟨hsig, halive, hitems, hq, hend, hcap⟩, ?_⟩
    intro hqe
    by_cases hpe : s.produce_end = true
    · exact hpe
    · exfalso
      apply hw
      simp only [Bool.not_eq_true] at hpe
      rw [hqe]
      simp [hpe]

/-- Key step lemma for `ThreadedIter::Next`: under the invariant, `Next` pops
exactly the head of the not-yet-consumed suffix of `l` from the front of the
ready queue, or reports end-of-stream precisely when that suffix is empty —
and only with the end-of-stream flag set and the ready queue empty. -/
lemma spNext_inv {α : Type} {l : List α} {k : Nat} {s : SPState α}
    (h : SPInv l k s) :
    (∀ a t, l.drop k = a :: t →
        (ThreadedIter.Next s).1 = .val a ∧
          SPInv l (k + 1) (ThreadedIter.Next s).2) ∧
    (l.drop k = [] →
        (ThreadedIter.Next s).1 = .eos ∧
          (ThreadedIter.Next s).2.produce_end = true ∧
          (ThreadedIter.Next s).2.queue = [] ∧
          SPInv l k (ThreadedIter.Next s).2) := by
  have hsig := h.1
  obtain ⟨⟨hsig1, halive1, hitems1, hq1, hend1, hcap1⟩, hready⟩ := spInv_waitReady h
  constructor
  · intro a t hdrop
    cases hqw : (waitReady s).queue with
    | nil =>
        exfalso
        have hrem : (waitReady s).remaining = [] := hend1 (hready hqw)
        rw [hqw, hrem, hdrop] at hq1
        exact List.cons_ne_nil a t hq1.symm
    | cons b q =>
        rw [spNext_eq_val hsig hqw]
        rw [hqw, hdrop] at hq1
        have hb : b = a := by
          have := congrArg (fun u => u.head?) hq1
          simpa using this
        subst hb
        refine ⟨rfl, ⟨hsig1, halive1, hitems1, ?_, hend1, hcap1⟩⟩
        have htl : q ++ (waitReady s).remaining = t := by
          have := congrArg (fun u => u.tail) hq1
          simpa using this
        have hdt : l.drop (k + 1) = t := by
          have hx := List.tail_drop l k
          rw [hdrop] at hx
          simpa using hx.symm
        show q ++ (waitReady s).remaining = l.drop (k + 1)
        rw [hdt]
        exact htl
  · intro hdrop
    cases hqw : (waitReady s).queue with
    | nil =>
        have hpe := hready hqw
        rw [spNext_eq_eos hsig hqw hpe]
        have hrem : (waitReady s).remaining = [] := hend1 hpe
        exact ⟨rfl, hpe, hqw, hsig1, halive1, hitems1, hq1, hend1, hcap1⟩
    | cons b q =>
        exfalso
        rw [hqw, hdrop] at hq1
        exact List.cons_ne_nil b (q ++ (waitReady s).remaining) hq1

lemma spConsume_cons_val {α : Type} {m : Nat} {sched : List Nat}
    {s s1 : SPState α} {a : α}
    (hnext : ThreadedIter.Next (applyProdSteps m s) = (.val a, s1)) :
    spConsume (m :: sched) s =
      (a :: (spConsume sched s1).1, (spConsume sched s1).2) := by
  conv_lhs => unfold spConsume
  simp only [hnext]

lemma spConsume_cons_eos {α : Type} {m : Nat} {sched : List Nat}
    {s s1 : SPState α}
    (hnext : ThreadedIter.Next (applyProdSteps m s) = (.eos, s1)) :
    spConsume (m :: sched) s = ([], s1) := by
  conv_lhs => unfold spConsume
  simp only [hnext]

/-- Running the consumer against a sufficiently long schedule drains exactly
the rest of the producer's sequence, in order, and leaves the pipe at
end-of-stream with an empty ready queue. -/
lemma spConsume_inv {α : Type} {l : List α} :
    ∀ (sched : List Nat) (k : Nat) (s : SPState α),
      SPInv l k s → l.length - k < sched.length →
      (spConsume sched s).1 = l.drop k ∧
      SPInv l l.length (spConsume sched s).2 ∧
      (spConsume sched s).2.produce_end = true ∧
      (spConsume sched s).2.queue = [] := by
  intro sched
  induction sched with
  | nil =>
      intro k s h hlen
      simp at hlen
  | cons m sched ih =>
      intro k s h hlen
      have h0 : SPInv l k (applyProdSteps m s) := spInv_applyProdSteps m h
      cases hdrop : l.drop k with
      | nil =>
          obtain ⟨hres, hpe, hqe, hinv⟩ := (spNext_inv h0).2 hdrop
          have hnext : ThreadedIter.Next (applyProdSteps m s) =
              (.eos, (ThreadedIter.Next (applyProdSteps m s)).2) := by
            have hx := Prod.mk.eta (p := ThreadedIter.Next (applyProdSteps m s))
            rw [← hx, hres]
          rw [spConsume_cons_eos hnext]
          have hkl : l.length ≤ k := List.drop_eq_nil_iff.mp hdrop
          obtain ⟨a1, a2, a3, a4, a5, a6⟩ := hinv
          refine ⟨rfl, ⟨a1, a2, a3, ?_, a5, a6⟩, hpe, hqe⟩
          have hdl : l.drop l.length = [] := by simp
          rw [hdl, a4, hdrop]
      | cons a t =>
          obtain ⟨hres, hinv⟩ := (spNext_inv h0).1 a t hdrop
          have hnext : ThreadedIter.Next (applyProdSteps m s) =
              (.val a, (ThreadedIter.Next (applyProdSteps m s)).2) := by
            have hx := Prod.mk.eta (p := ThreadedIter.Next (applyProdSteps m s))
            rw [← hx, hres]
          rw [spConsume_cons_val hnext]
          have hklt : k < l.length := by
            by_contra hk
            simp only [Nat.not_lt] at hk
            have := List.drop_eq_nil_iff.mpr hk
            rw [hdrop] at this
            exact List.cons_ne_nil a t this
          have hlen' : l.length - (k + 1) < sched.length := by
            simp only [List.length_cons] at hlen
            omega
          have hrec := ih (k + 1) _ hinv hlen'
          refine ⟨?_, hrec.2.1, hrec.2.2.1, hrec.2.2.2⟩
          have hdt : l.drop (k + 1) = t := by
            have hx := List.tail_drop l k
            rw [hdrop] at hx
            simpa using hx.symm
          show a :: (spConsume sched (ThreadedIter.Next (applyProdSteps m s)).2).1 = a :: t
          rw [hrec.1, hdt]

/-- Claim C1: for a deterministic producer yielding `l`, repeated `Next` calls
(under any interleaving with producer steps, given by `sched`) return exactly
the elements of `l` in order, each popping the front of the ready queue; the
following call reports exhaustion (returns false), which happens only with
the end-of-stream flag set and the ready queue empty. -/
theorem threadediter_fifo {α : Type} (l : List α) (cap : Nat) (sched : List Nat)
    (hcap : 0 < cap) (hlen : l.length < sched.length) :
    (spConsume sched (ThreadedIter.InitClosure l (spFresh α cap))).1 = l ∧
    (ThreadedIter.Next
        (spConsume sched (ThreadedIter.InitClosure l (spFresh α cap))).2).1 = .eos ∧
    (ThreadedIter.Next
        (spConsume sched (ThreadedIter.InitClosure l (spFresh α cap))).2).2.produce_end
      = true ∧
    (ThreadedIter.Next
        (spConsume sched (ThreadedIter.InitClosure l (spFresh α cap))).2).2.queue
      = [] := by
  have h0 := spInv_init (α := α) l cap hcap
  have hrun := spConsume_inv sched 0 _ h0 (by simpa using hlen)
  have hfin := (spNext_inv hrun.2.1).2 (by simp)
  exact ⟨by simpa using hrun.1, hfin.1, hfin.2.1, hfin.2.2.1⟩

/-- Witness for `threadediter_fifo` at `l = [1,2,3]`, capacity 2. -/
theorem threadediter_fifo_witness :
    0 < 2 ∧ [1, 2, 3].length < [0, 0, 0, 0].length ∧
    ((spConsume [0, 0, 0, 0] (ThreadedIter.InitClosure [1, 2, 3] (spFresh Nat 2))).1
        = [1, 2, 3] ∧
      (ThreadedIter.Next
          (spConsume [0, 0, 0, 0]
            (ThreadedIter.InitClosure [1, 2, 3] (spFresh Nat 2))).2).1 = .eos ∧
      (ThreadedIter.Next
          (spConsume [0, 0, 0, 0]
            (ThreadedIter.InitClosure [1, 2, 3] (spFresh Nat 2))).2).2.produce_end
        = true ∧
      (ThreadedIter.Next
          (spConsume [0, 0, 0, 0]
            (ThreadedIter.InitClosure [1, 2, 3] (spFresh Nat 2))).2).2.queue = []) :=
  ⟨by decide, by decide,
   threadediter_fifo [1, 2, 3] 2 [0, 0, 0, 0] (by decide) (by decide)⟩

/-- Claim C2 as stated is false: here is a pipe state in which the shutdown
signal has been set, yet `Next` does not fail fatally — it returns false
(threadediter.h line 365 returns before any `CHECK`). -/
theorem next_after_destroy_not_fatal_cex :
    c2Destroyed.producer_sig = .kDestroy ∧
    (ThreadedIter.Next c2Destroyed).1 = .eos ∧
    ¬ (ThreadedIter.Next c2Destroyed).1 = .fatal := by
  decide

/-- Claim C2 (amended): calling `Next` after shutdown has been requested
returns false immediately (reports end-of-stream) and leaves the state
untouched; it does not abort the process. -/
theorem next_after_destroy_returns_false {α : Type} (s : SPState α)
    (h : s.producer_sig = .kDestroy) :
    ThreadedIter.Next s = (.eos, s) := by
  unfold ThreadedIter.Next
  simp [h]

/-- Witness for `next_after_destroy_returns_false` at a concrete destroyed
pipe. -/
theorem next_after_destroy_returns_false_witness :
    c2Destroyed.producer_sig = .kDestroy ∧
    ThreadedIter.Next c2Destroyed = (.eos, c2Destroyed) :=
  ⟨by decide, next_after_destroy_returns_false c2Destroyed (by decide)⟩

/-- Claim C3: the code violates it.  After `Init(producer, true)`, the first
`Destroy` deletes the owned producer once, and the second `Destroy` (for
example the implicit one in the destructor) deletes it AGAIN, because
`ThreadedIter::Destroy` never clears `producer_owned_` (threadediter.h lines
263-265).  The owned producer is deleted twice — a double free. -/
theorem destroy_twice_double_deletes_producer :
    c3Owned.producer_owned = true ∧
    (ThreadedIter.Destroy c3Owned).owned_delete_count = 1 ∧
    (ThreadedIter.Destroy (ThreadedIter.Destroy c3Owned)).owned_delete_count = 2 := by
  decide

/-- Claim C4 as stated is false: when the first `Init` does not pass
ownership, `producer_owned_` stays NULL, so the second `Init` passes the
`CHECK(producer_owned_ == NULL)` and is not detected (no fatal error). -/
theorem init_twice_without_ownership_undetected_cex :
    exceptOk (ThreadedIter.InitProducer [7] false (spFresh Nat 2)) = true ∧
    c4FirstInit.thread_alive = true ∧
    exceptOk (ThreadedIter.InitProducer [9] false c4FirstInit) = true := by
  decide

/-- Claim C4 (amended): the producer-overload `Init` fails fatally exactly
when the pipe already holds an owned producer — that is, only when an earlier
`Init` passed ownership.  (The closure overload `InitClosure` performs no
check at all, as is visible from its definition.) -/
theorem init_twice_detected_iff_ownership {α : Type} (l : List α) (own : Bool)
    (s : SPState α) :
    ThreadedIter.InitProducer l own s = .error () ↔ s.producer_owned = true := by
  unfold ThreadedIter.InitProducer
  by_cases h : s.producer_owned = true
  · simp [h]
  · simp only [Bool.not_eq_true] at h
    simp [h]

/-- Claim C10: if `BeforeFirst` is called with the shutdown signal set, it
returns immediately (before touching the rewind signal or waiting for the
acknowledgement flag); its only state change is moving the adapter cell, if
held, into the free pool and nulling it. -/
theorem beforefirst_after_destroy {α : Type} (s : SPState α)
    (h : s.producer_sig = .kDestroy) :
    ThreadedIter.BeforeFirst s =
      some { s with
               free_cells :=
                 s.free_cells + (if s.out_data.isSome then 1 else 0),
               out_data := none } := by
  obtain ⟨it, rem, sig, sp, pe, mc, qu, fc, od, lo, po, odc, ta⟩ := s
  simp only at h
  subst h
  cases od with
  | none => simp [ThreadedIter.BeforeFirst, recycleOutData]
  | some a => simp [ThreadedIter.BeforeFirst, recycleOutData]

/-- Witness for `beforefirst_after_destroy` at a concrete destroyed pipe
holding an adapter cell. -/
theorem beforefirst_after_destroy_witness :
    { c2Destroyed with out_data := some 7 }.producer_sig = .kDestroy ∧
    ThreadedIter.BeforeFirst { c2Destroyed with out_data := some 7 } =
      some { { c2Destroyed with out_data := some 7 } with
               free_cells :=
                 { c2Destroyed with out_data := some 7 }.free_cells +
                   (if { c2Destroyed with out_data := some 7 }.out_data.isSome
                    then 1 else 0),
               out_data := none } :=
  ⟨by decide,
   beforefirst_after_destroy { c2Destroyed with out_data := some 7 } (by decide)⟩

lemma prodFstEq {β γ : Type} {p : β × γ} {r : β} (h : p.1 = r) :
    p = (r, p.2) := by
  rw [← h]

lemma recycleOutData_proj {α : Type} (s : SPState α) :
    (recycleOutData s).producer_sig = s.producer_sig ∧
    (recycleOutData s).thread_alive = s.thread_alive ∧
    (recycleOutData s).items = s.items ∧
    (recycleOutData s).remaining = s.remaining ∧
    (recycleOutData s).queue = s.queue ∧
    (recycleOutData s).max_capacity = s.max_capacity ∧
    (recycleOutData s).produce_end = s.produce_end ∧
    (recycleOutData s).out_data = none ∧
    (recycleOutData s).loaned = s.loaned := by
  unfold recycleOutData
  by_cases h : s.out_data.isSome = true
  · simp [h]
  · simp only [Bool.not_eq_true] at h
    have hn : s.out_data = none := Option.not_isSome_iff_eq_none.mp (by simp [h])
    simp [h, hn]

lemma producerStep_beforefirst {α : Type} {s : SPState α}
    (hsig : s.producer_sig = .kBeforeFirst) :
    producerStep s =
      { s with remaining := s.items,
               free_cells := s.free_cells + s.queue.length, queue := [],
               produce_end := false, producer_sig_processed := true,
               producer_sig := .kProduce } := by
  unfold producerStep
  rw [hsig]

lemma spBeforeFirst_eq_alive {α : Type} {s : SPState α}
    (hnd : ¬ (recycleOutData s).producer_sig = .kDestroy)
    (hal : (recycleOutData s).thread_alive = true) :
    ThreadedIter.BeforeFirst s =
      some { (producerStep
               { (recycleOutData s) with producer_sig := .kBeforeFirst }) with
               producer_sig_processed := false } := by
  unfold ThreadedIter.BeforeFirst
  simp [hnd, hal]

/-- Processing a rewind request on a live pipe restores the invariant at
position 0: the producer is reset, the ready queue is drained into the free
pool, and end-of-stream is cleared. -/
lemma spBeforeFirst_inv {α : Type} {l : List α} {k : Nat} {s : SPState α}
    (h : SPInv l k s) :
    (ThreadedIter.BeforeFirst s).isSome = true ∧
    SPInv l 0 ((ThreadedIter.BeforeFirst s).getD s) := by
  obtain ⟨hsig, halive, hitems, hq, hend, hcap⟩ := h
  obtain ⟨p1, p2, p3, p4, p5, p6, p7, p8, p9⟩ := recycleOutData_proj s
  have hnd : ¬ (recycleOutData s).producer_sig = .kDestroy := by
    rw [p1, hsig]
    simp
  have hal : (recycleOutData s).thread_alive = true := by rw [p2, halive]
  rw [spBeforeFirst_eq_alive hnd hal, producerStep_beforefirst rfl]
  refine ⟨rfl, ?_⟩
  simp only [Option.getD_some]
  refine ⟨rfl, ?_, ?_, ?_, ?_, ?_⟩
  · show (recycleOutData s).thread_alive = true
    exact hal
  · show (recycleOutData s).items = l
    rw [p3, hitems]
  · show [] ++ (recycleOutData s).items = l.drop 0
    rw [p3, hitems]
    simp
  · intro hE
    exact absurd hE (by simp)
  · show 0 < (recycleOutData s).max_capacity
    rw [p6]
    exact hcap

/-- The invariant (at some position) survives a consumer run with an
arbitrary schedule, even one that stops early. -/
lemma spConsume_any_inv {α : Type} {l : List α} :
    ∀ (sched : List Nat) (k : Nat) (s : SPState α), SPInv l k s →
      ∃ k2, SPInv l k2 (spConsume sched s).2 := by
  intro sched
  induction sched with
  | nil =>
      intro k s h
      exact ⟨k, h⟩
  | cons m sched ih =>
      intro k s h
      have h0 := spInv_applyProdSteps m h
      cases hdrop : l.drop k with
      | nil =>
          obtain ⟨hres, hpe, hqe, hinv⟩ := (spNext_inv h0).2 hdrop
          rw [spConsume_cons_eos (prodFstEq hres)]
          exact ⟨k, hinv⟩
      | cons a t =>
          obtain ⟨hres, hinv⟩ := (spNext_inv h0).1 a t hdrop
          rw [spConsume_cons_val (prodFstEq hres)]
          exact ih (k + 1) _ hinv

/-- A single `Next` call on a freshly rewound pipe returns the first element
of the sequence again (`take 1`, which also covers the empty producer). -/
lemma spConsume_single {α : Type} {l : List α} {s : SPState α}
    (h : SPInv l 0 s) (m : Nat) :
    (spConsume [m] s).1 = l.take 1 := by
  have h0 := spInv_applyProdSteps m h
  cases hl : l with
  | nil =>
      have hdrop : l.drop 0 = [] := by rw [hl]; rfl
      obtain ⟨hres, _, _, _⟩ := (spNext_inv h0).2 hdrop
      rw [spConsume_cons_eos (prodFstEq hres)]
      simp
  | cons a t =>
      have hdrop : l.drop 0 = a :: t := by rw [hl]; rfl
      obtain ⟨hres, hinv⟩ := (spNext_inv h0).1 a t hdrop
      rw [spConsume_cons_val (prodFstEq hres)]
      simp [spConsume]

/-- Claim C5: rewind reproduces the sequence of a deterministic producer.
The first full pass yields `l`; after consuming an arbitrary prefix
(schedule `sched1`), `BeforeFirst` returns, a full pass afterwards yields `l`
again (so drain–rewind–drain gives the same sequence twice), and in
particular the first pull after the rewind returns the first item again. -/
theorem threadediter_rewind_reproduces {α : Type} (l : List α) (cap : Nat)
    (sched1 schedF1 schedF2 : List Nat) (m : Nat) (hcap : 0 < cap)
    (h1 : l.length < schedF1.length) (h2 : l.length < schedF2.length) :
    (spConsume schedF1 (ThreadedIter.InitClosure l (spFresh α cap))).1 = l ∧
    (ThreadedIter.BeforeFirst
        (spConsume sched1 (ThreadedIter.InitClosure l (spFresh α cap))).2).isSome
      = true ∧
    (spConsume schedF2
        ((ThreadedIter.BeforeFirst
            (spConsume sched1 (ThreadedIter.InitClosure l (spFresh α cap))).2).getD
          (spConsume sched1 (ThreadedIter.InitClosure l (spFresh α cap))).2)).1
      = l ∧
    (spConsume [m]
        ((ThreadedIter.BeforeFirst
            (spConsume sched1 (ThreadedIter.InitClosure l (spFresh α cap))).2).getD
          (spConsume sched1 (ThreadedIter.InitClosure l (spFresh α cap))).2)).1
      = l.take 1 := by
  have h0 := spInv_init (α := α) l cap hcap
  have hpass1 := spConsume_inv schedF1 0 _ h0 (by simpa using h1)
  obtain ⟨k2, hk2⟩ := spConsume_any_inv sched1 0 _ h0
  obtain ⟨hbf, hbf0⟩ := spBeforeFirst_inv hk2
  have hpass2 := spConsume_inv schedF2 0 _ hbf0 (by simpa using h2)
  refine ⟨by simpa using hpass1.1, hbf, by simpa using hpass2.1,
         spConsume_single hbf0 m⟩

/-- Witness for `threadediter_rewind_reproduces`: producer `[1, 2]`,
capacity 2, one item consumed before the rewind. -/
theorem threadediter_rewind_reproduces_witness :
    0 < 2 ∧ [1, 2].length < [0, 0, 0].length ∧
    ((spConsume [0, 0, 0] (ThreadedIter.InitClosure [1, 2] (spFresh Nat 2))).1
        = [1, 2] ∧
      (ThreadedIter.BeforeFirst
          (spConsume [0] (ThreadedIter.InitClosure [1, 2] (spFresh Nat 2))).2).isSome
        = true ∧
      (spConsume [0, 0, 0]
          ((ThreadedIter.BeforeFirst
              (spConsume [0] (ThreadedIter.InitClosure [1, 2] (spFresh Nat 2))).2).getD
            (spConsume [0] (ThreadedIter.InitClosure [1, 2] (spFresh Nat 2))).2)).1
        = [1, 2] ∧
      (spConsume [0]
          ((ThreadedIter.BeforeFirst
              (spConsume [0] (ThreadedIter.InitClosure [1, 2] (spFresh Nat 2))).2).getD
            (spConsume [0] (ThreadedIter.InitClosure [1, 2] (spFresh Nat 2))).2)).1
        = [1, 2].take 1) :=
  ⟨by decide, by decide,
   threadediter_rewind_reproduces [1, 2] 2 [0] [0, 0, 0] [0, 0, 0] 0
     (by decide) (by decide) (by decide)⟩

/-- Claim C6 as stated is false: with capacity `C = 1`, the interleaving
"produce, pull, produce, pull, produce, pull" (each `Next` waiting on the
producer internally) with no recycling leaves 3 cells allocated —
more than `C + 1 = 2`.  Every pull allocates a fresh cell because the free
pool is empty while the consumer keeps all pulled cells on loan. -/
theorem capacity_bound_cex :
    c6Trace.max_capacity = 1 ∧ c6Trace.loaned = 3 ∧
    allocatedOf c6Trace = 3 ∧
    ¬ (allocatedOf c6Trace ≤ c6Trace.max_capacity + 1) := by
  decide

lemma outInd_le_one {α : Type} (s : SPState α) :
    (if s.out_data.isSome then 1 else 0) ≤ 1 := by
  by_cases h : s.out_data.isSome = true
  · simp [h]
  · simp only [Bool.not_eq_true] at h
    simp [h]

lemma producerRunnable_room {α : Type} {s : SPState α}
    (hsig : s.producer_sig = .kProduce) (hr : producerRunnable s = true) :
    s.queue.length < s.max_capacity ∨ s.free_cells ≠ 0 := by
  unfold producerRunnable at hr
  rw [hsig] at hr
  simp at hr
  rcases hr.2.2 with h | h
  · exact Or.inl h
  · exact Or.inr h

lemma cellInv_producerStep {α : Type} {cap : Nat} {s : SPState α}
    (h : CellInv cap s) (hr : producerRunnable s = true) :
    CellInv cap (producerStep s) := by
  obtain ⟨hlo, hmc, hal⟩ := h
  have hout := outInd_le_one s
  cases hsig : s.producer_sig with
  | kProduce =>
      cases hrem : s.remaining with
      | nil =>
          rw [producerStep_nil hsig hrem]
          exact ⟨hlo, hmc, hal⟩
      | cons a rest =>
          rw [producerStep_cons hsig hrem]
          refine ⟨hlo, hmc, ?_⟩
          have hroom := producerRunnable_room hsig hr
          show s.free_cells - 1 + (s.queue ++ [a]).length + s.loaned +
              (if s.out_data.isSome then 1 else 0) ≤ cap + 1
          unfold allocatedOf at hal
          simp only [List.length_append, List.length_cons, List.length_nil]
          rw [hmc] at hroom
          rcases hroom with hq | hf
          · by_cases hfz : s.free_cells = 0
            · rw [hfz]
              omega
            · omega
          · omega
  | kBeforeFirst =>
      have hstep := producerStep_beforefirst hsig
      rw [hstep]
      refine ⟨hlo, hmc, ?_⟩
      unfold allocatedOf at hal
      show s.free_cells + s.queue.length + [].length + s.loaned +
          (if s.out_data.isSome then 1 else 0) ≤ cap + 1
      simp only [List.length_nil]
      omega
  | kDestroy =>
      have hstep : producerStep s =
          { s with producer_sig_processed := true, produce_end := true,
                   thread_alive := false } := by
        unfold producerStep
        rw [hsig]
      rw [hstep]
      exact ⟨hlo, hmc, hal⟩

lemma cellInv_guardedStep {α : Type} {cap : Nat} {s : SPState α}
    (h : CellInv cap s) :
    CellInv cap (if producerRunnable s then producerStep s else s) := by
  by_cases hr : producerRunnable s = true
  · simpa [hr] using cellInv_producerStep h hr
  · simp only [Bool.not_eq_true] at hr
    simpa [hr] using h

lemma spNext_destroy {α : Type} (s : SPState α)
    (h : s.producer_sig = .kDestroy) : ThreadedIter.Next s = (.eos, s) := by
  unfold ThreadedIter.Next
  simp [h]

lemma spNext_fatal {α : Type} (s : SPState α)
    (h1 : ¬ s.producer_sig = .kDestroy) (h2 : ¬ s.producer_sig = .kProduce) :
    ThreadedIter.Next s = (.fatal, s) := by
  unfold ThreadedIter.Next
  simp [h1, h2]

lemma spNext_eq_blocked {α : Type} {s : SPState α}
    (hsig : s.producer_sig = .kProduce)
    (hqw : (waitReady s).queue = [])
    (hpe : (waitReady s).produce_end = false) :
    ThreadedIter.Next s = (.blocked, waitReady s) := by
  unfold ThreadedIter.Next
  rw [hsig]
  simp [hqw, hpe]

lemma nextAdapter_val {α : Type} {s s1 : SPState α} {a : α}
    (hnext : ThreadedIter.Next (recycleOutData s) = (.val a, s1)) :
    ThreadedIter.NextAdapter s =
      (true, { s1 with out_data := some a, loaned := s1.loaned - 1 }) := by
  unfold ThreadedIter.NextAdapter
  simp [hnext]

lemma nextAdapter_other {α : Type} {s s1 : SPState α} {r : NextRes α}
    (hnext : ThreadedIter.Next (recycleOutData s) = (r, s1))
    (hr : ∀ a, ¬ r = .val a) :
    ThreadedIter.NextAdapter s = (false, s1) := by
  unfold ThreadedIter.NextAdapter
  cases r with
  | val a => exact absurd rfl (hr a)
  | eos => simp [hnext]
  | fatal => simp [hnext]
  | blocked => simp [hnext]

lemma producerStep_out {α : Type} (s : SPState α) :
    (producerStep s).out_data = s.out_data := by
  unfold producerStep
  cases s.producer_sig with
  | kProduce => cases s.remaining <;> rfl
  | kBeforeFirst => rfl
  | kDestroy => rfl

lemma waitReady_out {α : Type} (s : SPState α) :
    (waitReady s).out_data = s.out_data := by
  unfold waitReady
  by_cases hw : (s.queue.isEmpty && !s.produce_end) = true
  · rw [if_pos hw]
    by_cases hr : producerRunnable s = true
    · rw [if_pos hr]
      exact producerStep_out s
    · rw [if_neg hr]
  · rw [if_neg hw]

lemma cellInv_recycleOutData {α : Type} {cap : Nat} {s : SPState α}
    (h : CellInv cap s) : CellInv cap (recycleOutData s) := by
  obtain ⟨hlo, hmc, hal⟩ := h
  unfold recycleOutData
  by_cases ho : s.out_data.isSome = true
  · rw [if_pos ho]
    refine ⟨hlo, hmc, ?_⟩
    unfold allocatedOf at hal ⊢
    simp only [ho, if_true] at hal
    simp only [Option.isSome_none, Bool.false_eq_true, if_false]
    omega
  · rw [if_neg ho]
    exact ⟨hlo, hmc, hal⟩

lemma cellInv_waitReady {α : Type} {cap : Nat} {s : SPState α}
    (h : CellInv cap s) : CellInv cap (waitReady s) := by
  unfold waitReady
  by_cases hw : (s.queue.isEmpty && !s.produce_end) = true
  · rw [if_pos hw]
    exact cellInv_guardedStep h
  · rw [if_neg hw]
    exact h

lemma cellInv_adapterNext {α : Type} {cap : Nat} {s : SPState α}
    (h : CellInv cap s) : CellInv cap (ThreadedIter.NextAdapter s).2 := by
  have h0 := cellInv_recycleOutData h
  have hout0 : (recycleOutData s).out_data = none :=
    (recycleOutData_proj s).2.2.2.2.2.2.2.1
  cases hsig : (recycleOutData s).producer_sig with
  | kDestroy =>
      rw [nextAdapter_other (spNext_destroy _ hsig) (by intro a h; cases h)]
      exact h0
  | kBeforeFirst =>
      rw [nextAdapter_other
            (spNext_fatal _ (by rw [hsig]; simp) (by rw [hsig]; simp))
            (by intro a h; cases h)]
      exact h0
  | kProduce =>
      have hw := cellInv_waitReady h0
      have hwout : (waitReady (recycleOutData s)).out_data = none := by
        rw [waitReady_out]
        exact hout0
      cases hqw : (waitReady (recycleOutData s)).queue with
      | nil =>
          cases hpe : (waitReady (recycleOutData s)).produce_end with
          | true =>
              rw [nextAdapter_other (spNext_eq_eos hsig hqw hpe)
                    (by intro a h; cases h)]
              exact hw
          | false =>
              rw [nextAdapter_other (spNext_eq_blocked hsig hqw hpe)
                    (by intro a h; cases h)]
              exact hw
      | cons a q =>
          rw [nextAdapter_val (spNext_eq_val hsig hqw)]
          obtain ⟨hlo, hmc, hal⟩ := hw
          refine ⟨by simpa using hlo, hmc, ?_⟩
          unfold allocatedOf at hal ⊢
          simp only [hqw, hwout, List.length_cons, Option.isSome_none,
            Bool.false_eq_true, if_false, Option.isSome_some, if_true] at hal ⊢
          simp only [Nat.add_sub_cancel]
          omega

lemma cellInv_beforeFirstOp {α : Type} {cap : Nat} {s : SPState α}
    (h : CellInv cap s) :
    CellInv cap ((ThreadedIter.BeforeFirst s).getD s) := by
  have h0 := cellInv_recycleOutData h
  unfold ThreadedIter.BeforeFirst
  by_cases hd : (recycleOutData s).producer_sig = .kDestroy
  · simp only [hd, if_true, Option.getD_some]
    exact h0
  · by_cases hal : (recycleOutData s).thread_alive = true
    · simp only [hd, if_false, hal, if_true, Option.getD_some]
      have h1 : CellInv cap
          { (recycleOutData s) with producer_sig := .kBeforeFirst } :=
        ⟨h0.1, h0.2.1, h0.2.2⟩
      have hrun : producerRunnable
          { (recycleOutData s) with producer_sig := .kBeforeFirst } = true := by
        unfold producerRunnable
        simp [hal]
      have h2 := cellInv_producerStep h1 hrun
      exact ⟨h2.1, h2.2.1, h2.2.2⟩
    · simp only [hd, if_false, hal, Option.getD_none]
      exact h

lemma cellInv_applyOp {α : Type} {cap : Nat} (op : SPOp) {s : SPState α}
    (h : CellInv cap s) : CellInv cap (applyOp op s) := by
  cases op with
  | produceStep => exact cellInv_guardedStep h
  | adapterNext => exact cellInv_adapterNext h
  | adapterRewind => exact cellInv_beforeFirstOp h

lemma cellInv_applyOps {α : Type} {cap : Nat} (ops : List SPOp) :
    ∀ (s : SPState α), CellInv cap s → CellInv cap (applyOps ops s) := by
  induction ops with
  | nil =>
      intro s h
      exact h
  | cons op ops ih =>
      intro s h
      have hx : applyOps (op :: ops) s = applyOps ops (applyOp op s) := rfl
      rw [hx]
      exact ih _ (cellInv_applyOp op h)

lemma cellInv_init {α : Type} (cap : Nat) (l : List α) :
    CellInv cap (ThreadedIter.InitClosure l (spFresh α cap)) := by
  refine ⟨rfl, rfl, ?_⟩
  simp [allocatedOf, ThreadedIter.InitClosure, spFresh]

/-- Claim C6 (amended): the `capacity + 1` bound holds for every interleaving
of producer steps with *adapter* consumer steps (`Next(void)` recycles the
previous cell before pulling, so at most one cell — `out_data_` — is ever on
loan).  Without that restriction the bound fails, because each raw
`Next(DType**)` while the free pool is empty makes the producer allocate a
fresh cell (see `capacity_bound_cex`). -/
theorem capacity_bound_adapter {α : Type} (cap : Nat) (l : List α)
    (ops : List SPOp) :
    allocatedOf (applyOps ops (ThreadedIter.InitClosure l (spFresh α cap)))
      ≤ cap + 1 :=
  (cellInv_applyOps ops _ (cellInv_init cap l)).2.2

/-!
## Model of `MultiThreadedIter<DType, SourceType>`

The N worker threads (threadediter.h lines 546-566) each repeatedly pull a
source item from the upstream `ThreadedIter`, transform it into an output
cell, and push `(cell, source)` into the shared `ConcurrentBlockingQueue`;
when the upstream is exhausted or the force-stop flag is set, a worker pushes
one sentinel `(nullptr, nullptr)` and terminates.  The consumer therefore
pops, in queue-arrival order, an interleaving of the N per-worker streams,
where worker `w`'s stream is its transformed items followed by exactly one
sentinel (`mkStream`).  The shared queue's content-as-it-will-arrive is the
`trace` field; a `Merged` hypothesis states that the trace is such an
interleaving.
-/

lemma gsum_nil {γ : Type} (g : γ → Nat) : gsum g [] = 0 := rfl

lemma gsum_cons {γ : Type} (g : γ → Nat) (x : γ) (fs : List γ) :
    gsum g (x :: fs) = g x + gsum g fs := by
  unfold gsum
  simp

lemma gsum_get_set {γ : Type} (g : γ → Nat) :
    ∀ (fs : List γ) (w : Nat) (y x : γ), fs.get? w = some y →
      gsum g (fs.set w x) + g y = gsum g fs + g x := by
  intro fs
  induction fs with
  | nil =>
      intro w y x hget
      simp at hget
  | cons z fsr ih =>
      intro w y x hget
      cases w with
      | zero =>
          simp only [List.get?] at hget
          obtain hzy : z = y := by injection hget
          subst hzy
          simp only [List.set]
          rw [gsum_cons, gsum_cons]
          omega
      | succ w =>
          simp only [List.get?] at hget
          have hx := ih w y x hget
          simp only [List.set]
          rw [gsum_cons, gsum_cons]
          omega

lemma le_gsum {γ : Type} (g : γ → Nat) :
    ∀ (fs : List γ) (w : Nat) (y : γ), fs.get? w = some y →
      g y ≤ gsum g fs := by
  intro fs
  induction fs with
  | nil =>
      intro w y hget
      simp at hget
  | cons z fsr ih =>
      intro w y hget
      cases w with
      | zero =>
          simp only [List.get?] at hget
          obtain hzy : z = y := by injection hget
          subst hzy
          rw [gsum_cons]
          omega
      | succ w =>
          simp only [List.get?] at hget
          have hx := ih w y hget
          rw [gsum_cons]
          omega

lemma mtDrainList_of_le {α : Type} {N k : Nat} (h : N ≤ k) :
    ∀ t : List (Option α), mtDrainList N k t = ([], k, t) := by
  intro t
  cases t with
  | nil => rfl
  | cons c t =>
      unfold mtDrainList
      rw [if_pos h]

lemma mkStream_ne_nil {α : Type} (xs : List α) : ¬ mkStream xs = [] := by
  cases xs <;> simp [mkStream]

lemma mtNextAux_nil {α : Type} (N k : Nat) :
    mtNextAux N k ([] : List (Option α)) = (.blocked, k, []) := rfl

lemma mtNextAux_cons_some {α : Type} (N k : Nat) (a : α) (t : List (Option α)) :
    mtNextAux N k (some a :: t) = (.val a, k, t) := rfl

lemma mtNextAux_cons_none {α : Type} (N k : Nat) (t : List (Option α)) :
    mtNextAux N k (none :: t) =
      if k + 1 = N then (.eos, k + 1, t) else mtNextAux N (k + 1) t := rfl

lemma mtDrainList_nil {α : Type} (N k : Nat) :
    mtDrainList N k ([] : List (Option α)) = ([], k, []) := rfl

lemma mtDrainList_cons_some {α : Type} {N k : Nat} (h : ¬ N ≤ k) (a : α)
    (t : List (Option α)) :
    mtDrainList N k (some a :: t) =
      (a :: (mtDrainList N k t).1, (mtDrainList N k t).2) := by
  conv_lhs => unfold mtDrainList
  rw [if_neg h]

lemma mtDrainList_cons_none {α : Type} {N k : Nat} (h : ¬ N ≤ k)
    (t : List (Option α)) :
    mtDrainList N k (none :: t) = mtDrainList N (k + 1) t := by
  conv_lhs => unfold mtDrainList
  rw [if_neg h]

/-- Stepping the code's pop loop corresponds to the specification drain:
a returned cell is the next collected element of the drain. -/
lemma mtNextAux_val_drain {α : Type} (N : Nat) :
    ∀ (t : List (Option α)) (k : Nat), k < N →
      ∀ a k2 t2, mtNextAux N k t = (.val a, k2, t2) →
        mtDrainList N k t =
          (a :: (mtDrainList N k2 t2).1, (mtDrainList N k2 t2).2) ∧
        t2.length < t.length ∧ k2 < N := by
  intro t
  induction t with
  | nil =>
      intro k hk a k2 t2 haux
      rw [mtNextAux_nil] at haux
      simp at haux
  | cons c t ih =>
      intro k hk a k2 t2 haux
      cases c with
      | some b =>
          rw [mtNextAux_cons_some] at haux
          simp only [Prod.mk.injEq, NextRes.val.injEq] at haux
          obtain ⟨hb, hk2, ht2⟩ := haux
          rw [← hb, ← hk2, ← ht2]
          exact ⟨mtDrainList_cons_some (by omega) b t, by simp, hk⟩
      | none =>
          rw [mtNextAux_cons_none] at haux
          by_cases hkn : k + 1 = N
          · rw [if_pos hkn] at haux
            simp at haux
          · rw [if_neg hkn] at haux
            have hk1 : k + 1 < N := by omega
            obtain ⟨hd, hlen, hk2⟩ := ih (k + 1) hk1 a k2 t2 haux
            refine ⟨?_, by simpa using Nat.lt_succ_of_lt hlen, hk2⟩
            rw [mtDrainList_cons_none (by omega)]
            exact hd

/-- A pop-loop outcome that is not a cell ends the drain with the same
counter and unread trace. -/
lemma mtNextAux_stop_drain {α : Type} (N : Nat) :
    ∀ (t : List (Option α)) (k : Nat), k < N →
      ∀ r k2 t2, mtNextAux N k t = (r, k2, t2) → (∀ a, ¬ r = .val a) →
        mtDrainList N k t = ([], k2, t2) := by
  intro t
  induction t with
  | nil =>
      intro k hk r k2 t2 haux hr
      rw [mtNextAux_nil] at haux
      simp only [Prod.mk.injEq] at haux
      obtain ⟨h1, h2, h3⟩ := haux
      subst h2
      subst h3
      rfl
  | cons c t ih =>
      intro k hk r k2 t2 haux hr
      cases c with
      | some b =>
          rw [mtNextAux_cons_some] at haux
          simp only [Prod.mk.injEq] at haux
          exact absurd haux.1.symm (hr b)
      | none =>
          rw [mtNextAux_cons_none] at haux
          by_cases hkn : k + 1 = N
          · rw [if_pos hkn] at haux
            simp only [Prod.mk.injEq] at haux
            obtain ⟨h1, h2, h3⟩ := haux
            subst h2
            subst h3
            rw [mtDrainList_cons_none (by omega)]
            exact mtDrainList_of_le (by omega) t
          · rw [if_neg hkn] at haux
            have hk1 : k + 1 < N := by omega
            have hd := ih (k + 1) hk1 r k2 t2 haux hr
            rw [mtDrainList_cons_none (by omega)]
            exact hd

lemma mtNext_guard {α σ : Type} {s : MTState α σ}
    (hg : s.thread_num ≤ s.null_cell_num) :
    MultiThreadedIter.Next s = (.eos, s) := by
  unfold MultiThreadedIter.Next
  rw [if_pos hg]

lemma mtNext_val {α σ : Type} {s : MTState α σ} {a : α} {k2 : Nat}
    {t2 : List (Option α)}
    (hg : ¬ s.thread_num ≤ s.null_cell_num)
    (haux : mtNextAux s.thread_num s.null_cell_num s.trace = (.val a, k2, t2)) :
    MultiThreadedIter.Next s =
      (.val a, { s with null_cell_num := k2, trace := t2,
                        loader := ThreadedIter.Recycle s.loader }) := by
  unfold MultiThreadedIter.Next
  rw [if_neg hg, haux]

lemma mtNext_stop {α σ : Type} {s : MTState α σ} {r : NextRes α} {k2 : Nat}
    {t2 : List (Option α)}
    (hg : ¬ s.thread_num ≤ s.null_cell_num)
    (haux : mtNextAux s.thread_num s.null_cell_num s.trace = (r, k2, t2))
    (hr : ∀ a, ¬ r = .val a) :
    MultiThreadedIter.Next s =
      (r, { s with null_cell_num := k2, trace := t2 }) := by
  cases r with
  | val a => exact absurd rfl (hr a)
  | eos =>
      unfold MultiThreadedIter.Next
      rw [if_neg hg, haux]
  | fatal =>
      unfold MultiThreadedIter.Next
      rw [if_neg hg, haux]
  | blocked =>
      unfold MultiThreadedIter.Next
      rw [if_neg hg, haux]

lemma mtDrainNext_val {α σ : Type} {fuel : Nat} {s s1 : MTState α σ} {a : α}
    (hnext : MultiThreadedIter.Next s = (.val a, s1)) :
    mtDrainNext (fuel + 1) s =
      (a :: (mtDrainNext fuel s1).1, (mtDrainNext fuel s1).2) := by
  conv_lhs => unfold mtDrainNext
  simp only [hnext]

lemma mtDrainNext_stop {α σ : Type} {fuel : Nat} {s s1 : MTState α σ}
    {r : NextRes α} (hnext : MultiThreadedIter.Next s = (r, s1))
    (hr : ∀ a, ¬ r = .val a) :
    mtDrainNext (fuel + 1) s = ([], s1) := by
  conv_lhs => unfold mtDrainNext
  cases r with
  | val a => exact absurd rfl (hr a)
  | eos => simp only [hnext]
  | fatal => simp only [hnext]
  | blocked => simp only [hnext]

/-- Repeatedly calling the code's `Next` computes exactly the specification
drain: same collected cells, same final null-cell counter, same unread
trace; the worker count is untouched. -/
lemma mtDrainNext_spec {α σ : Type} :
    ∀ (fuel : Nat) (s : MTState α σ), s.trace.length < fuel →
      (mtDrainNext fuel s).1 =
          (mtDrainList s.thread_num s.null_cell_num s.trace).1 ∧
      (mtDrainNext fuel s).2.null_cell_num =
          (mtDrainList s.thread_num s.null_cell_num s.trace).2.1 ∧
      (mtDrainNext fuel s).2.trace =
          (mtDrainList s.thread_num s.null_cell_num s.trace).2.2 ∧
      (mtDrainNext fuel s).2.thread_num = s.thread_num := by
  intro fuel
  induction fuel with
  | zero =>
      intro s hlen
      omega
  | succ fuel ih =>
      intro s hlen
      by_cases hg : s.thread_num ≤ s.null_cell_num
      · have hnext := mtNext_guard hg
        have hdl := mtDrainList_of_le hg s.trace
        rw [mtDrainNext_stop hnext (by intro a h; cases h), hdl]
        exact ⟨rfl, rfl, rfl, rfl⟩
      · have hk : s.null_cell_num < s.thread_num := by omega
        rcases haux : mtNextAux s.thread_num s.null_cell_num s.trace
          with ⟨r, k2, t2⟩
        cases r with
        | val a =>
            obtain ⟨hdl, hlen2, hk2⟩ :=
              mtNextAux_val_drain s.thread_num s.trace s.null_cell_num hk
                a k2 t2 haux
            have hnext := mtNext_val hg haux
            have hlen2f : t2.length < fuel := by
              simp only [Nat.lt_succ_iff] at hlen
              omega
            have hrec := ih { s with null_cell_num := k2, trace := t2, loader := ThreadedIter.Recycle s.loader } hlen2f
            rw [mtDrainNext_val hnext, hdl]
            refine ⟨?_, ?_, ?_, ?_⟩
            · simpa using hrec.1
            · simpa using hrec.2.1
            · simpa using hrec.2.2.1
            · simpa using hrec.2.2.2
        | eos =>
            have hdl := mtNextAux_stop_drain s.thread_num s.trace
              s.null_cell_num hk _ k2 t2 haux (by intro a h; cases h)
            have hnext := mtNext_stop hg haux (by intro a h; cases h)
            rw [mtDrainNext_stop hnext (by intro a h; cases h), hdl]
            exact ⟨rfl, rfl, rfl, rfl⟩
        | fatal =>
            have hdl := mtNextAux_stop_drain s.thread_num s.trace
              s.null_cell_num hk _ k2 t2 haux (by intro a h; cases h)
            have hnext := mtNext_stop hg haux (by intro a h; cases h)
            rw [mtDrainNext_stop hnext (by intro a h; cases h), hdl]
            exact ⟨rfl, rfl, rfl, rfl⟩
        | blocked =>
            have hdl := mtNextAux_stop_drain s.thread_num s.trace
              s.null_cell_num hk _ k2 t2 haux (by intro a h; cases h)
            have hnext := mtNext_stop hg haux (by intro a h; cases h)
            rw [mtDrainNext_stop hnext (by intro a h; cases h), hdl]
            exact ⟨rfl, rfl, rfl, rfl⟩

/-! ## The drain over an interleaving of worker streams -/

lemma shaped_of_set {α : Type} {fs : List (List (Option α))} {w : Nat}
    {b : Option α} {rest : List (Option α)}
    (hsh : ∀ str ∈ fs, Shaped str) (hget : fs.get? w = some (b :: rest))
    (hrest : Shaped rest) :
    ∀ str ∈ fs.set w rest, Shaped str := by
  intro str hstr
  rcases List.mem_or_eq_of_mem_set hstr with hmem | heq
  · exact hsh str hmem
  · rw [heq]
    exact hrest

lemma shaped_cons {α : Type} {b : Option α} {rest : List (Option α)}
    (h : Shaped (b :: rest)) :
    (b = none ∧ rest = []) ∨ (∃ a xs, b = some a ∧ rest = mkStream xs) := by
  rcases h with h | ⟨xs, hxs⟩
  · cases h
  · cases xs with
    | nil =>
        left
        simp [mkStream] at hxs
        exact ⟨hxs.1, hxs.2⟩
    | cons a xs =>
        right
        simp [mkStream] at hxs
        exact ⟨a, xs, hxs.1, by simp [mkStream, hxs.2]⟩

lemma mkStream_isEmpty {α : Type} (xs : List α) :
    (mkStream xs).isEmpty = false := by
  cases hxx : mkStream xs with
  | nil => exact absurd hxx (mkStream_ne_nil xs)
  | cons c cs => rfl

/-- Draining an interleaving of well-shaped worker streams collects exactly
the real cells of the trace, ends with the null-cell counter at `N`, and
reads the whole trace. -/
lemma mtDrainList_merged {α : Type} :
    ∀ (fs : List (List (Option α))) (t : List (Option α)), Merged fs t →
      ∀ (N k : Nat), (∀ str ∈ fs, Shaped str) → k + activeCount fs = N →
        mtDrainList N k t = (t.filterMap id, N, []) := by
  intro fs t hm
  induction hm with
  | nil fs hall =>
      intro N k hsh hact
      have hzero : activeCount fs = 0 := by
        unfold activeCount gsum
        apply List.sum_eq_zero
        intro x hx
        rcases List.mem_map.mp hx with ⟨str, hstr, hxe⟩
        rw [hall str hstr] at hxe
        simpa using hxe.symm
      have hkn : k = N := by
        rw [hzero] at hact
        omega
      rw [mtDrainList_nil, hkn]
      simp
  | cons fs w b rest t hget hmr ih =>
      intro N k hsh hact
      have hb := shaped_cons (hsh _ (List.get?_mem hget))
      have hactive1 : 1 ≤ activeCount fs := by
        have hx := le_gsum (fun str => if str.isEmpty then 0 else 1) fs w _ hget
        simpa [activeCount] using hx
      have hkN : k < N := by omega
      rcases hb with ⟨hbn, hrn⟩ | ⟨a, xs, hba, hrx⟩
      · subst hbn
        subst hrn
        have h1 : activeCount (fs.set w []) + 1 = activeCount fs := by
          have hx := gsum_get_set (fun str => if str.isEmpty then 0 else 1)
            fs w _ [] hget
          simpa [activeCount] using hx
        have hact2 : (k + 1) + activeCount (fs.set w []) = N := by omega
        have hsh2 := shaped_of_set hsh hget (Or.inl rfl)
        have hrec := ih N (k + 1) hsh2 hact2
        rw [mtDrainList_cons_none (by omega), hrec]
        simp
      · subst hba
        subst hrx
        have h1 : activeCount (fs.set w (mkStream xs)) = activeCount fs := by
          have hx := gsum_get_set (fun str => if str.isEmpty then 0 else 1)
            fs w _ (mkStream xs) hget
          simpa [activeCount, mkStream_isEmpty] using hx
        have hact2 : k + activeCount (fs.set w (mkStream xs)) = N := by omega
        have hsh2 := shaped_of_set hsh hget (Or.inr ⟨xs, rfl⟩)
        have hrec := ih N k hsh2 hact2
        rw [mtDrainList_cons_some (by omega), hrec]
        simp

/-- The number of real cells in an interleaving equals the total real-cell
count of the worker streams. -/
lemma filterMap_length_merged {α : Type} :
    ∀ (fs : List (List (Option α))) (t : List (Option α)), Merged fs t →
      (t.filterMap id).length = somesTotal fs := by
  intro fs t hm
  induction hm with
  | nil fs hall =>
      have hzero : somesTotal fs = 0 := by
        unfold somesTotal gsum
        apply List.sum_eq_zero
        intro x hx
        rcases List.mem_map.mp hx with ⟨str, hstr, hxe⟩
        rw [hall str hstr] at hxe
        simpa [someCount] using hxe.symm
      rw [hzero]
      simp
  | cons fs w b rest t hget hmr ih =>
      have hset := gsum_get_set someCount fs w (b :: rest) rest hget
      cases b with
      | none =>
          have hc : someCount (none :: rest) = someCount rest := by
            simp [someCount]
          rw [hc] at hset
          have hfm : List.filterMap id (none :: t) = List.filterMap id t := by
            simp
          rw [hfm, ih]
          unfold somesTotal
          omega
      | some a =>
          have hc : someCount (some a :: rest) = someCount rest + 1 := by
            simp [someCount, List.countP_cons]
          rw [hc] at hset
          have hfm : List.filterMap id (some a :: t) =
              a :: List.filterMap id t := by
            simp
          rw [hfm]
          simp only [List.length_cons]
          rw [ih]
          unfold somesTotal
          omega

lemma shaped_map_mkStream {α : Type} (itemss : List (List α)) :
    ∀ str ∈ itemss.map mkStream, Shaped str := by
  intro str hstr
  rcases List.mem_map.mp hstr with ⟨xs, hxs, hxe⟩
  exact Or.inr ⟨xs, hxe.symm⟩

lemma activeCount_map_mkStream {α : Type} (itemss : List (List α)) :
    activeCount (itemss.map mkStream) = itemss.length := by
  induction itemss with
  | nil => rfl
  | cons xs itemss ih =>
      simp only [List.map_cons, List.length_cons]
      unfold activeCount at ih ⊢
      rw [gsum_cons, mkStream_isEmpty, ih]
      simp only [Bool.false_eq_true, if_false]
      omega

lemma someCount_mkStream {α : Type} (xs : List α) :
    someCount (mkStream xs) = xs.length := by
  induction xs with
  | nil => rfl
  | cons a xs ih =>
      have h1 : mkStream (a :: xs) = some a :: mkStream xs := by
        simp [mkStream]
      rw [h1]
      unfold someCount at ih ⊢
      rw [List.countP_cons, ih]
      simp

lemma somesTotal_map_mkStream {α : Type} (itemss : List (List α)) :
    somesTotal (itemss.map mkStream) = (itemss.map List.length).sum := by
  induction itemss with
  | nil => rfl
  | cons xs itemss ih =>
      simp only [List.map_cons, List.sum_cons]
      unfold somesTotal at ih ⊢
      rw [gsum_cons, someCount_mkStream, ih]

/-- Claim C7: for `N` workers over a finite upstream of `M` source items in
total (worker `w` contributing the stream `mkStream (itemss.get w)`, i.e. its
transformed items followed by its one sentinel), and any interleaving `t` of
those worker streams, the consumer's `Next` returns a cell exactly `M` times
(all real cells, in queue order); each sentinel pop increments the null-cell
counter, which ends at exactly `N`; `Next` then returns false, and once the
counter has reached `N` a further `Next` attempts no pop and leaves the state
unchanged. -/
theorem multithreadediter_completeness {α : Type} (itemss : List (List α))
    (t : List (Option α)) (hm : Merged (itemss.map mkStream) t) :
    (mtDrainNext (t.length + 1) (mkMTState itemss.length t)).1 =
        t.filterMap id ∧
    (mtDrainNext (t.length + 1) (mkMTState itemss.length t)).1.length =
        (itemss.map List.length).sum ∧
    (mtDrainNext (t.length + 1)
        (mkMTState itemss.length t)).2.null_cell_num = itemss.length ∧
    (mtDrainNext (t.length + 1) (mkMTState itemss.length t)).2.trace = [] ∧
    MultiThreadedIter.Next
        (mtDrainNext (t.length + 1) (mkMTState itemss.length t)).2 =
      (.eos, (mtDrainNext (t.length + 1) (mkMTState itemss.length t)).2) := by
  have hsh := shaped_map_mkStream itemss
  have hact : 0 + activeCount (itemss.map mkStream) = itemss.length := by
    rw [activeCount_map_mkStream]
    omega
  have hdl := mtDrainList_merged _ t hm itemss.length 0 hsh hact
  have hspec := mtDrainNext_spec (t.length + 1) (mkMTState itemss.length t)
    (by simp [mkMTState])
  simp only [mkMTState] at hspec ⊢
  rw [hdl] at hspec
  obtain ⟨h1, h2, h3, h4⟩ := hspec
  refine ⟨h1, ?_, h2, h3, ?_⟩
  · rw [h1]
    show (List.filterMap id t).length = (itemss.map List.length).sum
    rw [filterMap_length_merged _ t hm, somesTotal_map_mkStream]
  · apply mtNext_guard
    rw [h4, h2]

/-- Witness for `multithreadediter_completeness`: two workers, items `[1]`
and `[2, 3]`, with the interleaving `1, 2, sentinel, 3, sentinel`. -/
theorem multithreadediter_completeness_witness :
    Merged ([[1], [2, 3]].map mkStream)
        [some 1, some 2, none, some 3, none] ∧
    ((mtDrainNext 6 (mkMTState 2 [some 1, some 2, none, some 3, none])).1 =
        [some 1, some 2, none, some 3, none].filterMap id ∧
      (mtDrainNext 6 (mkMTState 2 [some 1, some 2, none, some 3, none])).1.length
        = ([[1], [2, 3]].map List.length).sum ∧
      (mtDrainNext 6
          (mkMTState 2 [some 1, some 2, none, some 3, none])).2.null_cell_num
        = 2 ∧
      (mtDrainNext 6
          (mkMTState 2 [some 1, some 2, none, some 3, none])).2.trace = [] ∧
      MultiThreadedIter.Next
          (mtDrainNext 6 (mkMTState 2 [some 1, some 2, none, some 3, none])).2 =
        (.eos,
         (mtDrainNext 6
            (mkMTState 2 [some 1, some 2, none, some 3, none])).2)) := by
  have hmerg : Merged ([[1], [2, 3]].map mkStream)
      [some 1, some 2, none, some 3, none] := by
    refine Merged.cons _ 0 _ _ _ rfl ?_
    refine Merged.cons _ 1 _ _ _ rfl ?_
    refine Merged.cons _ 0 _ _ _ rfl ?_
    refine Merged.cons _ 1 _ _ _ rfl ?_
    refine Merged.cons _ 1 _ _ _ rfl ?_
    exact Merged.nil _ (by decide)
  exact ⟨hmerg,
    multithreadediter_completeness [[1], [2, 3]]
      [some 1, some 2, none, some 3, none] hmerg⟩

lemma mtRecycleOut_proj {α σ : Type} (s : MTState α σ) :
    (mtRecycleOut s).null_cell_num = s.null_cell_num ∧
    (mtRecycleOut s).trace = s.trace ∧
    (mtRecycleOut s).thread_num = s.thread_num ∧
    (mtRecycleOut s).out_data = none ∧
    (mtRecycleOut s).threads_alive = s.threads_alive ∧
    (mtRecycleOut s).force_stopped = s.force_stopped ∧
    (mtRecycleOut s).queue_allocated = s.queue_allocated ∧
    (mtRecycleOut s).transform_reset_count = s.transform_reset_count ∧
    (mtRecycleOut s).loader = s.loader ∧
    (mtRecycleOut s).queue_capacity = s.queue_capacity := by
  unfold mtRecycleOut
  by_cases h : s.out_data.isSome = true
  · simp [h]
  · simp only [Bool.not_eq_true] at h
    have hn : s.out_data = none := Option.not_isSome_iff_eq_none.mp (by simp [h])
    simp [h, hn]

lemma mtNextAdapter_val {α σ : Type} {s s1 : MTState α σ} {a : α}
    (hnext : MultiThreadedIter.Next (mtRecycleOut s) = (.val a, s1)) :
    MultiThreadedIter.NextAdapter s =
      (.val a, { s1 with out_data := some a }) := by
  unfold MultiThreadedIter.NextAdapter
  simp only [hnext]

lemma mtNextAdapter_stop {α σ : Type} {s s1 : MTState α σ} {r : NextRes α}
    (hnext : MultiThreadedIter.Next (mtRecycleOut s) = (r, s1))
    (hr : ∀ a, ¬ r = .val a) :
    MultiThreadedIter.NextAdapter s = (r, s1) := by
  unfold MultiThreadedIter.NextAdapter
  cases r with
  | val a => exact absurd rfl (hr a)
  | eos => simp only [hnext]
  | fatal => simp only [hnext]
  | blocked => simp only [hnext]

lemma mtDrainAdapter_val {α σ : Type} {fuel : Nat} {s s1 : MTState α σ}
    {a : α} (hnext : MultiThreadedIter.NextAdapter s = (.val a, s1)) :
    mtDrainAdapter (fuel + 1) s = mtDrainAdapter fuel s1 := by
  conv_lhs => unfold mtDrainAdapter
  simp only [hnext]

lemma mtDrainAdapter_stop {α σ : Type} {fuel : Nat} {s s1 : MTState α σ}
    {r : NextRes α} (hnext : MultiThreadedIter.NextAdapter s = (r, s1))
    (hr : ∀ a, ¬ r = .val a) :
    mtDrainAdapter (fuel + 1) s = s1 := by
  conv_lhs => unfold mtDrainAdapter
  cases r with
  | val a => exact absurd rfl (hr a)
  | eos => simp only [hnext]
  | fatal => simp only [hnext]
  | blocked => simp only [hnext]

/-- Draining via the adapter `Next` (the `while (Next()) {}` loop of
`BeforeFirst`) reads the trace exactly like the specification drain, leaves
the adapter cell empty, and does not touch the control fields, the reset
closure counter, or the loader's control state. -/
lemma mtDrainAdapter_spec {α σ : Type} :
    ∀ (fuel : Nat) (s : MTState α σ), s.trace.length < fuel →
      (mtDrainAdapter fuel s).null_cell_num =
          (mtDrainList s.thread_num s.null_cell_num s.trace).2.1 ∧
      (mtDrainAdapter fuel s).trace =
          (mtDrainList s.thread_num s.null_cell_num s.trace).2.2 ∧
      (mtDrainAdapter fuel s).out_data = none ∧
      (mtDrainAdapter fuel s).thread_num = s.thread_num ∧
      (mtDrainAdapter fuel s).threads_alive = s.threads_alive ∧
      (mtDrainAdapter fuel s).force_stopped = s.force_stopped ∧
      (mtDrainAdapter fuel s).queue_allocated = s.queue_allocated ∧
      (mtDrainAdapter fuel s).transform_reset_count =
          s.transform_reset_count ∧
      (mtDrainAdapter fuel s).queue_capacity = s.queue_capacity ∧
      (mtDrainAdapter fuel s).loader.producer_sig = s.loader.producer_sig ∧
      (mtDrainAdapter fuel s).loader.thread_alive = s.loader.thread_alive ∧
      (mtDrainAdapter fuel s).loader.items = s.loader.items := by
  intro fuel
  induction fuel with
  | zero =>
      intro s hlen
      omega
  | succ fuel ih =>
      intro s hlen
      obtain ⟨q1, q2, q3, q4, q5, q6, q7, q8, q9, q10⟩ := mtRecycleOut_proj s
      by_cases hg : s.thread_num ≤ s.null_cell_num
      · have hg' : (mtRecycleOut s).thread_num ≤
            (mtRecycleOut s).null_cell_num := by
          rw [q1, q3]
          exact hg
        have hnext := mtNext_guard hg'
        have hstep := mtNextAdapter_stop hnext (by intro a h; cases h)
        rw [mtDrainAdapter_stop hstep (by intro a h; cases h)]
        rw [mtDrainList_of_le hg s.trace]
        exact ⟨q1, q2, q4, q3, q5, q6, q7, q8, q10,
               by rw [q9], by rw [q9], by rw [q9]⟩
      · have hk : s.null_cell_num < s.thread_num := by omega
        have hg' : ¬ (mtRecycleOut s).thread_num ≤
            (mtRecycleOut s).null_cell_num := by
          rw [q1, q3]
          exact hg
        rcases haux : mtNextAux s.thread_num s.null_cell_num s.trace
          with ⟨r, k2, t2⟩
        have haux' : mtNextAux (mtRecycleOut s).thread_num
            (mtRecycleOut s).null_cell_num (mtRecycleOut s).trace =
            (r, k2, t2) := by
          rw [q1, q2, q3]
          exact haux
        cases r with
        | val a =>
            obtain ⟨hdl, hlen2, hk2⟩ :=
              mtNextAux_val_drain s.thread_num s.trace s.null_cell_num hk
                a k2 t2 haux
            have hnext := mtNext_val hg' haux'
            have hstep := mtNextAdapter_val hnext
            rw [mtDrainAdapter_val hstep]
            have hlen2f : t2.length < fuel := by omega
            have hrec := ih { { mtRecycleOut s with null_cell_num := k2, trace := t2, loader := ThreadedIter.Recycle (mtRecycleOut s).loader } with out_data := some a } (by simpa using hlen2f)
            rw [hdl]
            obtain ⟨r1, r2, r3, r4, r5, r6, r7, r8, r9, r10, r11, r12⟩ := hrec
            refine ⟨by simpa [q3] using r1, by simpa [q3] using r2, r3,
                    by simpa [q3] using r4, by simpa [q5] using r5,
                    by simpa [q6] using r6, by simpa [q7] using r7,
                    by simpa [q8] using r8, by simpa [q10] using r9,
                    by simpa [q9] using r10, by simpa [q9] using r11,
                    by simpa [q9] using r12⟩
        | eos =>
            have hdl := mtNextAux_stop_drain s.thread_num s.trace
              s.null_cell_num hk _ k2 t2 haux (by intro a h; cases h)
            have hnext := mtNext_stop hg' haux' (by intro a h; cases h)
            have hstep := mtNextAdapter_stop hnext (by intro a h; cases h)
            rw [mtDrainAdapter_stop hstep (by intro a h; cases h), hdl]
            exact ⟨rfl, rfl, q4, q3, q5, q6, q7, q8, q10,
                   by rw [q9], by rw [q9], by rw [q9]⟩
        | fatal =>
            have hdl := mtNextAux_stop_drain s.thread_num s.trace
              s.null_cell_num hk _ k2 t2 haux (by intro a h; cases h)
            have hnext := mtNext_stop hg' haux' (by intro a h; cases h)
            have hstep := mtNextAdapter_stop hnext (by intro a h; cases h)
            rw [mtDrainAdapter_stop hstep (by intro a h; cases h), hdl]
            exact ⟨rfl, rfl, q4, q3, q5, q6, q7, q8, q10,
                   by rw [q9], by rw [q9], by rw [q9]⟩
        | blocked =>
            have hdl := mtNextAux_stop_drain s.thread_num s.trace
              s.null_cell_num hk _ k2 t2 haux (by intro a h; cases h)
            have hnext := mtNext_stop hg' haux' (by intro a h; cases h)
            have hstep := mtNextAdapter_stop hnext (by intro a h; cases h)
            rw [mtDrainAdapter_stop hstep (by intro a h; cases h), hdl]
            exact ⟨rfl, rfl, q4, q3, q5, q6, q7, q8, q10,
                   by rw [q9], by rw [q9], by rw [q9]⟩

set_option maxHeartbeats 1000000 in
/-- Claim C8: `MultiThreadedIter::BeforeFirst`, on a running pipe whose
pending shared-queue deliveries form an interleaving of well-shaped worker
streams (each worker still owing the sentinel it pushes when it observes the
force-stop flag or upstream exhaustion), performs the source's sequence —
set force-stop, drain, join, drain, re-run the reset closure, rewind the
upstream loader, clear the flag and counter, relaunch the workers — and
afterwards the pipe's control state (force-stop flag, null-cell counter,
live workers) equals that of a freshly constructed-and-initialized pipe; the
queue is fully drained, the adapter cell is empty, the reset closure has run
once more, and the upstream loader is rewound to the start of its item
sequence. -/
theorem multithreadediter_beforefirst_reinit {α σ : Type} (s : MTState α σ)
    (fss : List (List (Option α)))
    (hm : Merged fss s.trace) (hsh : ∀ str ∈ fss, Shaped str)
    (hact : s.null_cell_num + activeCount fss = s.thread_num)
    (hq : s.queue_allocated = true)
    (hla : s.loader.thread_alive = true)
    (hls : ¬ s.loader.producer_sig = .kDestroy) :
    (MultiThreadedIter.BeforeFirst s).isSome = true ∧
    mtControl ((MultiThreadedIter.BeforeFirst s).getD s) =
      mtControl (MultiThreadedIter.Init
        (mtFreshState (α := α) s.loader s.thread_num s.queue_capacity)) ∧
    ((MultiThreadedIter.BeforeFirst s).getD s).trace = [] ∧
    ((MultiThreadedIter.BeforeFirst s).getD s).out_data = none ∧
    ((MultiThreadedIter.BeforeFirst s).getD s).transform_reset_count =
      s.transform_reset_count + 1 ∧
    ((MultiThreadedIter.BeforeFirst s).getD s).thread_num = s.thread_num ∧
    ((MultiThreadedIter.BeforeFirst s).getD s).loader.producer_sig =
      .kProduce ∧
    ((MultiThreadedIter.BeforeFirst s).getD s).loader.produce_end = false ∧
    ((MultiThreadedIter.BeforeFirst s).getD s).loader.queue = [] ∧
    ((MultiThreadedIter.BeforeFirst s).getD s).loader.remaining =
      s.loader.items := by
  have hdl := mtDrainList_merged fss s.trace hm s.thread_num s.null_cell_num
    hsh hact
  have h1 := mtDrainAdapter_spec (s.trace.length + 1)
    { s with force_stopped := true } (by simp)
  simp only [hdl] at h1
  obtain ⟨a1, a2, a3, a4, a5, a6, a7, a8, a9, a10, a11, a12⟩ := h1
  have h4 := mtDrainAdapter_spec
    ((mtDrainAdapter (s.trace.length + 1)
        { s with force_stopped := true }).trace.length + 1)
    { (mtDrainAdapter (s.trace.length + 1)
        { s with force_stopped := true }) with threads_alive := 0 }
    (by simp)
  have hle : (mtDrainAdapter (s.trace.length + 1)
      { s with force_stopped := true }).thread_num ≤
      (mtDrainAdapter (s.trace.length + 1)
      { s with force_stopped := true }).null_cell_num := by
    rw [a4, a1]
  simp only [mtDrainList_of_le hle] at h4
  obtain ⟨b1, b2, b3, b4, b5, b6, b7, b8, b9, b10, b11, b12⟩ := h4
  simp only [MultiThreadedIter.BeforeFirst]
  have hnd2 : ¬ (recycleOutData (mtDrainAdapter
      ((mtDrainAdapter (s.trace.length + 1)
          { s with force_stopped := true }).trace.length + 1)
      { (mtDrainAdapter (s.trace.length + 1)
          { s with force_stopped := true }) with
          threads_alive := 0 }).loader).producer_sig = .kDestroy := by
    rw [(recycleOutData_proj _).1, b10, a10]
    exact hls
  have hal2 : (recycleOutData (mtDrainAdapter
      ((mtDrainAdapter (s.trace.length + 1)
          { s with force_stopped := true }).trace.length + 1)
      { (mtDrainAdapter (s.trace.length + 1)
          { s with force_stopped := true }) with
          threads_alive := 0 }).loader).thread_alive = true := by
    rw [(recycleOutData_proj _).2.1, b11, a11]
    exact hla
  have hbfl := spBeforeFirst_eq_alive hnd2 hal2
  rw [producerStep_beforefirst rfl] at hbfl
  simp only [hbfl]
  simp only [Option.isSome_some, Option.getD_some]
  refine ⟨trivial, ?_, ?_, ?_, ?_, ?_, ?_, ?_, ?_, ?_⟩
  · simp only [mtControl, MultiThreadedIter.Init, mtFreshState]
    rw [b4, a4]
  · exact b2.trans a2
  · exact b3
  · exact congrArg (fun n => n + 1) (b8.trans a8)
  · exact b4.trans a4
  · trivial
  · trivial
  · trivial
  · exact ((recycleOutData_proj _).2.2.1.trans b12).trans a12

/-- Witness for `multithreadediter_beforefirst_reinit` at `c8State`. -/
theorem multithreadediter_beforefirst_reinit_witness :
    (c8State.null_cell_num + activeCount [[some 5, none]] =
        c8State.thread_num) ∧
    c8State.loader.thread_alive = true ∧
    ((MultiThreadedIter.BeforeFirst c8State).isSome = true ∧
      mtControl ((MultiThreadedIter.BeforeFirst c8State).getD c8State) =
        mtControl (MultiThreadedIter.Init
          (mtFreshState (α := Nat) c8State.loader c8State.thread_num
            c8State.queue_capacity)) ∧
      ((MultiThreadedIter.BeforeFirst c8State).getD c8State).trace = [] ∧
      ((MultiThreadedIter.BeforeFirst c8State).getD c8State).out_data =
        none ∧
      ((MultiThreadedIter.BeforeFirst c8State).getD
          c8State).transform_reset_count =
        c8State.transform_reset_count + 1 ∧
      ((MultiThreadedIter.BeforeFirst c8State).getD c8State).thread_num =
        c8State.thread_num ∧
      ((MultiThreadedIter.BeforeFirst c8State).getD
          c8State).loader.producer_sig = .kProduce ∧
      ((MultiThreadedIter.BeforeFirst c8State).getD
          c8State).loader.produce_end = false ∧
      ((MultiThreadedIter.BeforeFirst c8State).getD c8State).loader.queue =
        [] ∧
      ((MultiThreadedIter.BeforeFirst c8State).getD
          c8State).loader.remaining = c8State.loader.items) := by
  have hmerg : Merged [[some 5, none]] c8State.trace := by
    refine Merged.cons _ 0 _ _ _ rfl ?_
    refine Merged.cons _ 0 _ _ _ rfl ?_
    exact Merged.nil _ (by decide)
  have hsh : ∀ str ∈ [[some 5, (none : Option Nat)]], Shaped str := by
    intro str hstr
    simp only [List.mem_singleton] at hstr
    subst hstr
    exact Or.inr ⟨[5], rfl⟩
  exact ⟨by decide, rfl,
    multithreadediter_beforefirst_reinit c8State [[some 5, none]] hmerg hsh
      (by decide) rfl rfl (by decide)⟩

/-- Claim C9: the code violates it for the multi-producer pipe.  Destroying
a single-producer pipe that was never initialized is safe (no thread is
joined, nothing is freed, the state is unchanged), but
`MultiThreadedIter::Destroy` on a constructed-but-never-initialized pipe
dereferences the NULL shared-queue pointer in `queue_->SignalForKill()`
(threadediter.h line 596; `queue_` is only allocated by `Init`, line 544 —
and the join loop would then also index the empty `producer_threads_`
vector). -/
theorem destroy_without_init :
    ThreadedIter.Destroy (spFresh Nat 8) = spFresh Nat 8 ∧
    (mtFreshState (α := Nat) (spFresh Nat 8) 3 4).queue_allocated = false ∧
    MultiThreadedIter.Destroy (mtFreshState (α := Nat) (spFresh Nat 8) 3 4) =
      .error "null queue_ dereferenced in SignalForKill" := by
  refine ⟨?_, rfl, ?_⟩
  · decide
  · rfl
